import Mathlib

/-!
Verification of the invoiceapp CSV/tax pipeline.

This file shallowly embeds the numeric and parsing core of the repository
(the tax decomposition engines, the property-code resolver, the amount and
date coercions, the CSV tokenizers/normalizers, the accounting CSV emitter
and the dual-file reconciliation matcher) and proves or refutes the frozen
claims about it.

Modelling conventions:
* JavaScript `number` values are modelled as `ℚ`; `Math.round x` is
  `⌊x + 1/2⌋` (JS rounds half toward +∞).  Where the source can produce
  `NaN` (via `parseFloat`) the model uses `Option ℚ` with `none` for `NaN`.
* Strings are Lean `String`s; the character-level work is done on
  `String.data` (`List Char`) so that concrete witnesses evaluate by
  `decide` / `rfl`.
* JS `Date` is modelled for the inputs that actually occur in the data
  flow (ISO `YYYY-MM-DD` and `D MMM YYYY` strings), in a UTC environment;
  other exotic formats accepted by some JS engines are treated as invalid.
* Throwing functions are embedded as `Except String`; functions that
  silently skip rows return only what the source returns.
-/

/-- JS `Math.round`: round to the nearest integer, halves toward +∞. -/
def jsRound (q : ℚ) : ℤ := ⌊q + 1/2⌋

/-- `Math.round (q * 100) / 100` — the 2-decimal rounding used throughout
the source. -/
def round2 (q : ℚ) : ℚ := ((jsRound (q * 100) : ℤ) : ℚ) / 100

theorem round2_def (q : ℚ) : round2 q = ((⌊q * 100 + 1/2⌋ : ℤ) : ℚ) / 100 := rfl

theorem round2_shape (q : ℚ) : ∃ n : ℤ, round2 q = (n : ℚ) / 100 :=
  ⟨jsRound (q * 100), rfl⟩

theorem round2_add_int_div (q : ℚ) (n : ℤ) :
    round2 (q + (n : ℚ) / 100) = round2 q + (n : ℚ) / 100 := by
  unfold round2 jsRound
  have h : (q + (n : ℚ) / 100) * 100 + 1/2 = (q * 100 + 1/2) + (n : ℚ) := by
    ring
  rw [h, Int.floor_add_int]
  push_cast
  ring

theorem round2_zero : round2 0 = 0 := by
  unfold round2 jsRound
  norm_num

theorem round2_int_div (n : ℤ) : round2 ((n : ℚ) / 100) = (n : ℚ) / 100 := by
  have h := round2_add_int_div 0 n
  simpa [round2_zero] using h

theorem round2_sub_int_div (q : ℚ) (n : ℤ) :
    round2 (q - (n : ℚ) / 100) = round2 q - (n : ℚ) / 100 := by
  have h := round2_add_int_div q (-n)
  push_cast at h
  simpa [sub_eq_add_neg, neg_div] using h

/-! ### Formula A: `calculateAccountingTaxes` (accounting export tax engine) -/

/-- `TaxBreakdown` record returned by `calculateAccountingTaxes`. -/
structure TaxBreakdown where
  netto : ℚ
  vat : ℚ
  cityTax : ℚ
  brutto : ℚ
deriving DecidableEq, Repr

/-- Embedding of `calculateAccountingTaxes` (accounting module):
`netto = brutto / 1.132`, `vat = netto * 0.10`, `cityTax = netto * 0.032`,
all rounded to 2 decimals, then the rounding difference
`round2 (brutto - (nettoRounded + vatRounded + cityTaxRounded))` is added to
the rounded VAT figure. -/
def calculateAccountingTaxes (brutto : ℚ) : TaxBreakdown :=
  let netto := brutto / 1.132
  let vat := netto * 0.10
  let cityTax := netto * 0.032
  let nettoRounded := round2 netto
  let vatRounded := round2 vat
  let cityTaxRounded := round2 cityTax
  let calculatedSum := nettoRounded + vatRounded + cityTaxRounded
  let difference := round2 (brutto - calculatedSum)
  let adjustedVat := round2 (vatRounded + difference)
  { netto := nettoRounded, vat := adjustedVat, cityTax := cityTaxRounded,
    brutto := brutto }

/-- C1: for every gross amount > 0 (default rates VAT 10 %, city tax 3.2 %,
combined divisor 1.132) the accounting decomposition reconciles exactly:
the 2-decimal roundings of the returned components sum to the 2-decimal
rounding of the gross, the rounding difference being absorbed by the VAT
component, while `netto` and `cityTax` are the plain 2-decimal roundings of
`brutto / 1.132` and of `(brutto / 1.132) * 0.032`. -/
theorem accountingTaxes_reconcile (brutto : ℚ) (hpos : 0 < brutto) :
    round2 (calculateAccountingTaxes brutto).netto
        + round2 (calculateAccountingTaxes brutto).vat
        + round2 (calculateAccountingTaxes brutto).cityTax = round2 brutto
    ∧ (calculateAccountingTaxes brutto).netto = round2 (brutto / 1.132)
    ∧ (calculateAccountingTaxes brutto).cityTax
        = round2 (brutto / 1.132 * 0.032) := by
  refine ⟨?_, rfl, rfl⟩
  unfold calculateAccountingTaxes
  dsimp only
  obtain ⟨n, hn⟩ := round2_shape (brutto / 1.132)
  obtain ⟨v, hv⟩ := round2_shape (brutto / 1.132 * 0.10)
  obtain ⟨c, hc⟩ := round2_shape (brutto / 1.132 * 0.032)
  obtain ⟨b, hb⟩ := round2_shape brutto
  rw [hn, hv, hc]
  have hsum : (n : ℚ) / 100 + (v : ℚ) / 100 + (c : ℚ) / 100
      = ((n + v + c : ℤ) : ℚ) / 100 := by push_cast; ring
  rw [hsum, round2_sub_int_div, hb]
  have hdiff : (v : ℚ) / 100 + ((b : ℚ) / 100 - ((n + v + c : ℤ) : ℚ) / 100)
      = ((b - n - c : ℤ) : ℚ) / 100 := by push_cast; ring
  rw [hdiff]
  simp only [round2_int_div]
  push_cast
  ring

/-- Witness for C1 at `brutto = 110`. -/
theorem accountingTaxes_reconcile_witness :
    (0 : ℚ) < 110
    ∧ (round2 (calculateAccountingTaxes 110).netto
          + round2 (calculateAccountingTaxes 110).vat
          + round2 (calculateAccountingTaxes 110).cityTax = round2 110
        ∧ (calculateAccountingTaxes 110).netto = round2 ((110 : ℚ) / 1.132)
        ∧ (calculateAccountingTaxes 110).cityTax
            = round2 ((110 : ℚ) / 1.132 * 0.032)) :=
  ⟨by norm_num, accountingTaxes_reconcile 110 (by norm_num)⟩

/-! ### Formula B: `calculateTaxes` (per-invoice, configurable mode) -/

/-- City-tax computation mode of the per-invoice engine. -/
inductive CityTaxMode where
  | SIMPLE
  | VIENNA_METHOD
deriving DecidableEq, Repr

/-- `TaxCalculation` record returned by `calculateTaxes`. -/
structure TaxCalculation where
  netAmount : ℚ
  vatAmount : ℚ
  grossAmount : ℚ
  cityTaxAmount : ℚ
  totalAmount : ℚ
deriving DecidableEq, Repr

/-- Embedding of the per-invoice `calculateTaxes`:
`net = gross / (1 + vatRate)`, `vat = gross - net`, city tax from gross
(`SIMPLE`) or from net (`VIENNA_METHOD`), `total = gross + cityTax`; each
output rounded to 2 decimals independently, with no reconciliation. -/
def calculateTaxes (grossAmount vatRate cityTaxRate : ℚ)
    (cityTaxMode : CityTaxMode) : TaxCalculation :=
  let netAmount := grossAmount / (1 + vatRate)
  let vatAmount := grossAmount - netAmount
  let cityTaxAmount :=
    match cityTaxMode with
    | .SIMPLE => grossAmount * cityTaxRate
    | .VIENNA_METHOD => netAmount * cityTaxRate
  let totalAmount := grossAmount + cityTaxAmount
  { netAmount := round2 netAmount, vatAmount := round2 vatAmount,
    grossAmount := round2 grossAmount, cityTaxAmount := round2 cityTaxAmount,
    totalAmount := round2 totalAmount }

/-- Embedding of the other `calculateTaxes` copy in the repository
(the one whose comments describe both taxes as percentages of the net
amount): `net = gross / (1 + cityTaxRate + vatRate)`,
`cityTax = net * cityTaxRate`, `vat = net * vatRate`,
`total = net + cityTax + vat`; the `cityTaxMode` parameter is accepted
but never read, and each output is rounded to 2 decimals
independently. -/
def calculateTaxesAlt (grossAmount vatRate cityTaxRate : ℚ)
    (cityTaxMode : CityTaxMode) : TaxCalculation :=
  let netAmount := grossAmount / (1 + cityTaxRate + vatRate)
  let cityTaxAmount := netAmount * cityTaxRate
  let vatAmount := netAmount * vatRate
  let totalAmount := netAmount + cityTaxAmount + vatAmount
  { netAmount := round2 netAmount, vatAmount := round2 vatAmount,
    grossAmount := round2 grossAmount, cityTaxAmount := round2 cityTaxAmount,
    totalAmount := round2 totalAmount }

/-- Evaluation rule for `round2` from integer bracketing of the scaled
argument. -/
theorem round2_eq_of_bounds (q : ℚ) (n : ℤ) (h1 : (n : ℚ) ≤ q * 100 + 1/2)
    (h2 : q * 100 + 1/2 < (n : ℚ) + 1) : round2 q = (n : ℚ) / 100 := by
  unfold round2 jsRound
  have hfl : ⌊q * 100 + 1/2⌋ = n := by
    rw [Int.floor_eq_iff]
    exact ⟨h1, by exact_mod_cast h2⟩
  rw [hfl]

/-- C2 (corrected): the mode-switching `calculateTaxes` copy returns
`net = round2 (gross / (1 + vatRate))`,
`vat = round2 (gross - gross / (1 + vatRate))`, city tax
`round2 (gross * cityTaxRate)` in `SIMPLE` mode or
`round2 ((gross / (1 + vatRate)) * cityTaxRate)` in `VIENNA_METHOD` mode,
and `total = round2 (gross + cityTaxRaw)`, each output rounded
independently with no reconciliation adjustment; the other cited copy
(`calculateTaxesAlt`) instead computes
`net = round2 (gross / (1 + cityTaxRate + vatRate))`, derives both
taxes from that net, returns `total = round2 (net + cityTax + vat)`,
and ignores the mode entirely. -/
theorem calculateTaxes_formula (g vr cr : ℚ) (m : CityTaxMode) :
    ((calculateTaxes g vr cr m).netAmount = round2 (g / (1 + vr))
      ∧ (calculateTaxes g vr cr m).vatAmount = round2 (g - g / (1 + vr))
      ∧ (calculateTaxes g vr cr m).cityTaxAmount
          = round2 (match m with
              | .SIMPLE => g * cr
              | .VIENNA_METHOD => g / (1 + vr) * cr)
      ∧ (calculateTaxes g vr cr m).totalAmount
          = round2 (g + (match m with
              | .SIMPLE => g * cr
              | .VIENNA_METHOD => g / (1 + vr) * cr))
      ∧ (calculateTaxes g vr cr m).grossAmount = round2 g)
    ∧ ((calculateTaxesAlt g vr cr m).netAmount = round2 (g / (1 + cr + vr))
      ∧ (calculateTaxesAlt g vr cr m).vatAmount
          = round2 (g / (1 + cr + vr) * vr)
      ∧ (calculateTaxesAlt g vr cr m).cityTaxAmount
          = round2 (g / (1 + cr + vr) * cr)
      ∧ (calculateTaxesAlt g vr cr m).totalAmount
          = round2 (g / (1 + cr + vr) + g / (1 + cr + vr) * cr
              + g / (1 + cr + vr) * vr)
      ∧ (calculateTaxesAlt g vr cr m).grossAmount = round2 g
      ∧ calculateTaxesAlt g vr cr m
          = calculateTaxesAlt g vr cr CityTaxMode.SIMPLE) := by
  cases m <;>
    exact ⟨⟨rfl, rfl, rfl, rfl, rfl⟩, ⟨rfl, rfl, rfl, rfl, rfl, rfl⟩⟩

/-- C2 counterexample: at gross 100, vatRate 10 percent,
cityTaxRate 3.2 percent and `SIMPLE` mode, the copy of
`calculateTaxes` that bases both taxes on net returns
net 88.34 and cityTax 2.83, not the net 90.91 and cityTax 3.20 that
the claimed formulas demand. -/
theorem calculateTaxes_alt_counterexample :
    (calculateTaxesAlt 100 (1/10) (4/125) CityTaxMode.SIMPLE).netAmount
        ≠ round2 ((100 : ℚ) / (1 + 1/10))
    ∧ (calculateTaxesAlt 100 (1/10) (4/125) CityTaxMode.SIMPLE).cityTaxAmount
        ≠ round2 ((100 : ℚ) * (4/125)) := by
  have hnet : (calculateTaxesAlt 100 (1/10) (4/125)
        CityTaxMode.SIMPLE).netAmount
      = round2 ((100 : ℚ) / (1 + 4/125 + 1/10)) := rfl
  have hct : (calculateTaxesAlt 100 (1/10) (4/125)
        CityTaxMode.SIMPLE).cityTaxAmount
      = round2 ((100 : ℚ) / (1 + 4/125 + 1/10) * (4/125)) := rfl
  have e1 : round2 ((100 : ℚ) / (1 + 4/125 + 1/10)) = ((8834 : ℤ) : ℚ) / 100 :=
    round2_eq_of_bounds _ 8834 (by norm_num) (by norm_num)
  have e2 : round2 ((100 : ℚ) / (1 + 1/10)) = ((9091 : ℤ) : ℚ) / 100 :=
    round2_eq_of_bounds _ 9091 (by norm_num) (by norm_num)
  have e3 : round2 ((100 : ℚ) / (1 + 4/125 + 1/10) * (4/125))
      = ((283 : ℤ) : ℚ) / 100 :=
    round2_eq_of_bounds _ 283 (by norm_num) (by norm_num)
  have e4 : round2 ((100 : ℚ) * (4/125)) = ((320 : ℤ) : ℚ) / 100 :=
    round2_eq_of_bounds _ 320 (by norm_num) (by norm_num)
  constructor
  · rw [hnet, e1, e2]; norm_num
  · rw [hct, e3, e4]; norm_num

/-! ### String utilities with JS semantics -/

/-- Whitespace characters relevant to `String.prototype.trim` for the
inputs in this code base. -/
def isJsWs (c : Char) : Bool := c == ' ' || c == '\t' || c == '\n' || c == '\r'

/-- Trim on character lists: drop whitespace from both ends. -/
def trimChars (l : List Char) : List Char :=
  ((l.dropWhile isJsWs).reverse.dropWhile isJsWs).reverse

/-- JS `s.trim()`. -/
def jsTrim (s : String) : String := String.mk (trimChars s.data)

/-- ASCII lower-casing of one character (JS `toLowerCase` restricted to the
character repertoire appearing in the property tables). -/
def charLower (c : Char) : Char :=
  if 'A' ≤ c ∧ c ≤ 'Z' then Char.ofNat (c.toNat + 32) else c

/-- JS `s.toLowerCase()`. -/
def jsToLower (s : String) : String := String.mk (s.data.map charLower)

/-- Does `hay` start with `pat`? -/
def listStartsWith : List Char → List Char → Bool
  | _, [] => true
  | [], _ :: _ => false
  | c :: cs, p :: ps => c == p && listStartsWith cs ps

/-- Substring containment on character lists. -/
def hasSub (hay sub : List Char) : Bool :=
  if listStartsWith hay sub then true
  else
    match hay with
    | [] => false
    | _ :: t => hasSub t sub

/-- JS `s.includes(pat)`. -/
def jsIncludes (s pat : String) : Bool := hasSub s.data pat.data

theorem head?_dropWhile_false {α} (p : α → Bool) :
    ∀ (l : List α) (x : α), (l.dropWhile p).head? = some x → p x = false := by
  intro l
  induction l with
  | nil => intro x h; simp at h
  | cons a t ih =>
    intro x h
    by_cases ha : p a = true
    · rw [List.dropWhile_cons, if_pos ha] at h
      exact ih x h
    · rw [List.dropWhile_cons, if_neg ha] at h
      simp only [List.head?_cons, Option.some.injEq] at h
      subst h
      simpa using ha

theorem dropWhile_eq_self_of_head? {α} (p : α → Bool) (l : List α)
    (h : ∀ x, l.head? = some x → p x = false) : l.dropWhile p = l := by
  cases l with
  | nil => rfl
  | cons a t =>
    have := h a rfl
    rw [List.dropWhile_cons, if_neg (by simp [this])]

theorem dropWhile_dropWhile {α} (p : α → Bool) (l : List α) :
    (l.dropWhile p).dropWhile p = l.dropWhile p :=
  dropWhile_eq_self_of_head? p _ (head?_dropWhile_false p l)

theorem trimChars_idem (l : List Char) : trimChars (trimChars l) = trimChars l := by
  unfold trimChars
  have h1 : (((l.dropWhile isJsWs).reverse.dropWhile isJsWs).reverse).dropWhile isJsWs
      = ((l.dropWhile isJsWs).reverse.dropWhile isJsWs).reverse := by
    apply dropWhile_eq_self_of_head?
    intro x hx
    rw [List.head?_reverse] at hx
    have hne : (l.dropWhile isJsWs).reverse.dropWhile isJsWs ≠ [] := by
      intro hnil
      rw [hnil] at hx
      simp at hx
    have h2 : ((l.dropWhile isJsWs).reverse).getLast? = some x := by
      conv_lhs =>
        rw [← List.takeWhile_append_dropWhile (p := isJsWs)
          (l := (l.dropWhile isJsWs).reverse)]
      rw [List.getLast?_append_of_ne_nil _ hne]
      exact hx
    rw [List.getLast?_reverse] at h2
    exact head?_dropWhile_false isJsWs l x h2
  rw [h1, List.reverse_reverse, dropWhile_dropWhile]

theorem jsTrim_idem (s : String) : jsTrim (jsTrim s) = jsTrim s := by
  simp [jsTrim, trimChars_idem]

/-! ### Property code resolver (`getLocationShort`, accounting module) -/

/-- Reservation source tag. -/
inductive Source where
  | BookingCom
  | AirBnB
deriving DecidableEq, Repr

/-- The string the source renders for each source tag. -/
def sourceStr : Source → String
  | .BookingCom => "Booking.com"
  | .AirBnB => "AirBnB"

/-- Exact-match table of Booking.com property names (including the direct
BMD prefix entries). -/
def bookingPropertyTable : List (String × String) :=
  [("Home Sweet Home - Vienna Central", "BEGA"),
   ("Home Sweet Home - State Opera", "WAFG"),
   ("Home Sweet Home - Leopold", "LAS"),
   ("Home Sweet Home - Stephansdom", "KRA"),
   ("Home Sweet Home - Stephansdom II", "BM"),
   ("Margot", "KLIE"),
   ("Denube Suites", "LAMM"),
   ("Céleste Suites", "ZIMM"),
   ("BMD01", "BMD01"),
   ("BMD02", "BMD02"),
   ("BMD03", "BMD03"),
   ("BMD04", "BMD04"),
   ("BMD05", "BMD05"),
   ("BMD06", "BMD06"),
   ("BMD07", "BMD07"),
   ("BMD08", "BMD08")]

/-- Ordered case-insensitive substring heuristics for Booking.com names.
Each entry is a conjunction of disjunctions of lower-case patterns paired
with the resulting short code. -/
def bookingHeuristics : List (List (List String) × String) :=
  [([["vienna central"]], "BEGA"),
   ([["state opera"]], "WAFG"),
   ([["leopold"]], "LAS"),
   ([["stephansdom ii"]], "BM"),
   ([["stephansdom"]], "KRA"),
   ([["margot"]], "KLIE"),
   ([["denube"]], "LAMM"),
   ([["céleste", "celeste"]], "ZIMM")]

/-- Exact-match table of Airbnb listing names. -/
def airbnbPropertyTable : List (String × String) :=
  [("2 Bedroom + Balcony, Leopold", "LAS"),
   ("2 Bedroom Flat with Terrace, Close to U1", "LAMM"),
   ("2 Bedroom Superior Apt + Balcony", "LAS"),
   ("5 Star Apartment – 7 Min to Center", "LAS"),
   ("Central Vienna Stay Near Main Station", "LAS"),
   ("Elegant 2 Bedroom Flat, Bright & Peaceful", "LAMM"),
   ("Grand Viennese Apartment with Balcony", "ZIMM"),
   ("Large Apartment with a Balcony – 7 Min to Center", "LAS"),
   ("Spacious Central Penthouse", "LAS"),
   ("Spacious Gem in Vienna\u0027s Center", "BEGA")]

/-- Ordered substring heuristics for Airbnb listing names. -/
def airbnbHeuristics : List (List (List String) × String) :=
  [([["central"], ["penthouse"]], "LAS"),
   ([["spacious"], ["gem"]], "BEGA"),
   ([["grand"], ["viennese"]], "ZIMM"),
   ([["elegant"], ["peaceful"]], "LAMM"),
   ([["terrace"], ["u1"]], "LAMM"),
   ([["leopold"]], "LAS"),
   ([["7 min", "center"]], "LAS")]

/-- Shared shape of both branches of `getLocationShort`: trim, exact table
lookup, then ordered case-insensitive substring heuristics, then return the
(trimmed) input unchanged. -/
def resolveName (table : List (String × String))
    (heur : List (List (List String) × String)) (propertyName : String) : String :=
  let name := jsTrim propertyName
  match table.lookup name with
  | some code => code
  | none =>
    let lowerName := jsToLower name
    match heur.find? (fun e => e.1.all (fun grp => grp.any (fun p => jsIncludes lowerName p))) with
    | some e => e.2
    | none => name

/-- Embedding of `getLocationShort(propertyName, source)`. -/
def getLocationShort (propertyName : String) (source : Source) : String :=
  match source with
  | .AirBnB => resolveName airbnbPropertyTable airbnbHeuristics propertyName
  | .BookingCom => resolveName bookingPropertyTable bookingHeuristics propertyName

theorem lookup_snd_mem {k v : String} :
    ∀ l : List (String × String), List.lookup k l = some v → v ∈ l.map Prod.snd := by
  intro l
  induction l with
  | nil => intro h; simp [List.lookup] at h
  | cons a t ih =>
    intro h
    rw [List.lookup] at h
    cases hk : k == a.1
    · rw [hk] at h
      simp only [List.map_cons, List.mem_cons]
      exact Or.inr (ih h)
    · rw [hk] at h
      have hv : a.2 = v := by simpa using h
      subst hv
      simp

theorem resolveName_fallthrough (t : List (String × String))
    (h : List (List (List String) × String)) (name : String)
    (htrim : jsTrim name = name)
    (hl : List.lookup name t = none)
    (hf : List.find? (fun e => e.1.all
        (fun grp => grp.any (fun p => jsIncludes (jsToLower name) p))) h = none) :
    resolveName t h name = name := by
  simp only [resolveName, htrim, hl, hf]

theorem resolveName_idem (t : List (String × String))
    (h : List (List (List String) × String))
    (hfix : ∀ v ∈ t.map Prod.snd ++ h.map Prod.snd, resolveName t h v = v) :
    ∀ p, resolveName t h (resolveName t h p) = resolveName t h p := by
  intro p
  rcases hl : List.lookup (jsTrim p) t with _ | code
  · rcases hf : List.find? (fun e => e.1.all
        (fun grp => grp.any (fun pat => jsIncludes (jsToLower (jsTrim p)) pat))) h with _ | e
    · have hres : resolveName t h p = jsTrim p := by
        simp only [resolveName, hl, hf]
      rw [hres]
      apply resolveName_fallthrough t h (jsTrim p) (jsTrim_idem p)
      · exact hl
      · exact hf
    · have hres : resolveName t h p = e.2 := by
        simp only [resolveName, hl, hf]
      rw [hres]
      apply hfix
      rw [List.mem_append]
      exact Or.inr (List.mem_map_of_mem Prod.snd (List.mem_of_find?_eq_some hf))
  · have hres : resolveName t h p = code := by
      simp only [resolveName, hl]
    rw [hres]
    apply hfix
    rw [List.mem_append]
    exact Or.inl (lookup_snd_mem t hl)

theorem booking_codes_fixed :
    ∀ v ∈ bookingPropertyTable.map Prod.snd ++ bookingHeuristics.map Prod.snd,
      resolveName bookingPropertyTable bookingHeuristics v = v := by decide

theorem airbnb_codes_fixed :
    ∀ v ∈ airbnbPropertyTable.map Prod.snd ++ airbnbHeuristics.map Prod.snd,
      resolveName airbnbPropertyTable airbnbHeuristics v = v := by decide

/-- C9: the property code resolver is idempotent on its own output — for
every input name and source, resolving the result of a resolution returns
it unchanged (emitted short codes are not further rewritten and the
fall-through case returns the input unchanged). -/
theorem getLocationShort_idempotent (p : String) (src : Source) :
    getLocationShort (getLocationShort p src) src = getLocationShort p src := by
  cases src with
  | BookingCom => exact resolveName_idem _ _ booking_codes_fixed p
  | AirBnB => exact resolveName_idem _ _ airbnb_codes_fixed p

/-! ### Amount coercion (`parseFloat`, `parseAmount`, booking totalPayment) -/

/-- ASCII digit test. -/
def isDigitChar (c : Char) : Bool := '0' ≤ c && c ≤ '9'

/-- The ten ASCII digit characters. -/
def digitChars : List Char := ['0', '1', '2', '3', '4', '5', '6', '7', '8', '9']

/-- Numeric value of one ASCII digit. -/
def digitVal (c : Char) : ℕ := c.toNat - 48

/-- Value of a digit string read left to right. -/
def natOfDigits (l : List Char) : ℕ := l.foldl (fun acc c => 10 * acc + digitVal c) 0

/-- Digits-then-optional-fraction part of JS `parseFloat` (after sign
handling): longest digit prefix, then `.` and a second digit run; `none`
models `NaN` (no digits at all). -/
def jsParseFloatCore (l : List Char) : Option ℚ :=
  let intPart := l.takeWhile isDigitChar
  let rest := l.dropWhile isDigitChar
  let fracPart :=
    match rest with
    | c :: r => if c == '.' then r.takeWhile isDigitChar else []
    | [] => []
  if intPart.isEmpty && fracPart.isEmpty then none
  else some ((natOfDigits intPart : ℚ) + (natOfDigits fracPart : ℚ) / (10 : ℚ) ^ fracPart.length)

/-- JS `parseFloat` (exponent notation, which never occurs in this code
base's amount strings, is not modelled): skip leading whitespace, optional
sign, digit run, optional fraction; `none` is `NaN`. -/
def jsParseFloat (s : String) : Option ℚ :=
  match s.data.dropWhile isJsWs with
  | [] => none
  | c :: rest =>
    if c == '-' then (jsParseFloatCore rest).map (fun q => -q)
    else if c == '+' then jsParseFloatCore rest
    else jsParseFloatCore (c :: rest)

/-- Characters stripped by `parseAmount`'s regex `[€$£¥₹,]` — note that the
COMMA is stripped unconditionally. -/
def currencyStripChars : List Char := ['€', '$', '£', '¥', '₹', ',']

/-- Embedding of `parseAmount` (generic CSV parser, `lib/csv-parser.ts`):
empty string → 0; strip all occurrences of `[€$£¥₹,]`; trim; `parseFloat`;
`NaN` → 0. -/
def parseAmount (s : String) : ℚ :=
  if s = "" then 0
  else (jsParseFloat (jsTrim (String.mk
    (s.data.filter (fun c => !(currencyStripChars.contains c)))))).getD 0

/-- Characters stripped by the booking normalizer's currency regex `[€$£]`. -/
def bookingCurrencyChars : List Char := ['€', '$', '£']

/-- Replace the first occurrence of `t` by `r` (JS `String.replace` with a
string pattern, single-character case). -/
def replaceFirstChar : List Char → Char → Char → List Char
  | [], _, _ => []
  | c :: cs, t, r => if c == t then r :: cs else c :: replaceFirstChar cs t r

/-- Embedding of the `totalPayment` coercion inside `parseBookingCSV`
(accounting module): strip `[€$£]` and trim, then — if the value contains a
comma but no dot — replace the first comma by a dot; if it contains both,
delete all dots (thousands separators) and replace the first comma by a
dot; finally `parseFloat(value) || 0`. -/
def cleanTotalPaymentChars (l : List Char) : List Char :=
  let v := trimChars (l.filter (fun c => !(bookingCurrencyChars.contains c)))
  if v.contains ',' && !(v.contains '.') then replaceFirstChar v ',' '.'
  else if v.contains ',' && v.contains '.' then
    replaceFirstChar (v.filter (fun c => !(c == '.'))) ',' '.'
  else v

/-- The booking normalizer's full `totalPayment` coercion. -/
def cleanTotalPayment (s : String) : ℚ :=
  (jsParseFloat (String.mk (cleanTotalPaymentChars s.data))).getD 0

theorem data_mk (l : List Char) : (String.mk l).data = l := rfl

theorem digitChars_isDigit : ∀ c ∈ digitChars, isDigitChar c = true := by decide

theorem digitChars_not_ws : ∀ c ∈ digitChars, isJsWs c = false := by decide

theorem digitChars_not_dash : ∀ c ∈ digitChars, (c == '-') = false := by decide

theorem digitChars_not_plus : ∀ c ∈ digitChars, (c == '+') = false := by decide

theorem takeWhile_all {α} (p : α → Bool) :
    ∀ l : List α, (∀ c ∈ l, p c = true) → l.takeWhile p = l := by
  intro l
  induction l with
  | nil => intro _; rfl
  | cons a t ih =>
    intro h
    rw [List.takeWhile_cons, if_pos (h a (by simp))]
    rw [ih (fun c hc => h c (by simp [hc]))]

/-- `jsParseFloatCore` on `digits ++ '.' :: digits`. -/
theorem jsParseFloatCore_digits_frac (a b : List Char)
    (ha : ∀ c ∈ a, c ∈ digitChars) (hb : ∀ c ∈ b, c ∈ digitChars)
    (hne : a ≠ []) :
    jsParseFloatCore (a ++ '.' :: b)
      = some ((natOfDigits a : ℚ) + (natOfDigits b : ℚ) / (10 : ℚ) ^ b.length) := by
  have hdig : ∀ c ∈ a, isDigitChar c = true :=
    fun c hc => digitChars_isDigit c (ha c hc)
  have hbdig : ∀ c ∈ b, isDigitChar c = true :=
    fun c hc => digitChars_isDigit c (hb c hc)
  have h1 : (a ++ '.' :: b).takeWhile isDigitChar = a := by
    rw [List.takeWhile_append_of_pos hdig, List.takeWhile_cons, if_neg (by decide)]
    exact List.append_nil a
  have h2 : (a ++ '.' :: b).dropWhile isDigitChar = '.' :: b := by
    rw [List.dropWhile_append_of_pos hdig, List.dropWhile_cons, if_neg (by decide)]
  have h3 : (if (('.' == '.') = true) then List.takeWhile isDigitChar b else []) = b := by
    simp [takeWhile_all isDigitChar b hbdig]
  unfold jsParseFloatCore
  rw [h1, h2]
  dsimp only
  rw [h3]
  rw [if_neg (by cases a with | nil => exact absurd rfl hne | cons x xs => simp)]

theorem dropWhile_all {α} (p : α → Bool) :
    ∀ l : List α, (∀ c ∈ l, p c = true) → l.dropWhile p = [] := by
  intro l
  induction l with
  | nil => intro _; rfl
  | cons a t ih =>
    intro h
    rw [List.dropWhile_cons, if_pos (h a (by simp))]
    exact ih (fun c hc => h c (by simp [hc]))

/-- `jsParseFloatCore` on a pure digit run. -/
theorem jsParseFloatCore_digits (a : List Char)
    (ha : ∀ c ∈ a, c ∈ digitChars) (hne : a ≠ []) :
    jsParseFloatCore a = some (natOfDigits a : ℚ) := by
  have hdig : ∀ c ∈ a, isDigitChar c = true :=
    fun c hc => digitChars_isDigit c (ha c hc)
  unfold jsParseFloatCore
  rw [takeWhile_all isDigitChar a hdig, dropWhile_all isDigitChar a hdig]
  rw [if_neg (by cases a with | nil => exact absurd rfl hne | cons x xs => simp)]
  have h0 : natOfDigits [] = 0 := rfl
  simp [h0]

/-- `jsParseFloat` on a string whose characters start with a digit reduces
to `jsParseFloatCore`. -/
theorem jsParseFloat_mk_digit_head (l : List Char) (x : Char) (xs : List Char)
    (hl : l = x :: xs) (hx : x ∈ digitChars) :
    jsParseFloat (String.mk l) = jsParseFloatCore l := by
  subst hl
  unfold jsParseFloat
  rw [data_mk, List.dropWhile_cons, if_neg (by simp [digitChars_not_ws x hx])]
  dsimp only
  rw [if_neg (by simp [digitChars_not_dash x hx]),
    if_neg (by simp [digitChars_not_plus x hx])]

theorem contains_eq_decide_mem (l : List Char) (c : Char) :
    l.contains c = decide (c ∈ l) := by
  simp [List.contains]

theorem dropWhile_eq_self_of_all {α} (p : α → Bool) (l : List α)
    (h : ∀ c ∈ l, p c = false) : l.dropWhile p = l := by
  apply dropWhile_eq_self_of_head?
  intro x hx
  exact h x (List.mem_of_mem_head? (Option.mem_def.mpr hx))

theorem trimChars_eq_self (l : List Char) (h : ∀ c ∈ l, isJsWs c = false) :
    trimChars l = l := by
  unfold trimChars
  rw [dropWhile_eq_self_of_all isJsWs l h]
  rw [dropWhile_eq_self_of_all isJsWs l.reverse
    (fun c hc => h c (List.mem_reverse.mp hc))]
  exact List.reverse_reverse l

theorem replaceFirst_comma_append (b : List Char) :
    ∀ a : List Char, (∀ c ∈ a, (c == ',') = false) →
      replaceFirstChar (a ++ ',' :: b) ',' '.' = a ++ '.' :: b := by
  intro a
  induction a with
  | nil => intro _; simp [replaceFirstChar]
  | cons x xs ih =>
    intro h
    have hx : (x == ',') = false := h x (by simp)
    rw [List.cons_append, replaceFirstChar, if_neg (by simp [hx]), List.cons_append]
    rw [ih (fun c hc => h c (by simp [hc]))]

theorem digitChars_not_comma : ∀ c ∈ digitChars, (c == ',') = false := by decide

theorem digitChars_not_dot : ∀ c ∈ digitChars, (c == '.') = false := by decide

theorem digitChars_not_bookingCurrency :
    ∀ c ∈ digitChars, bookingCurrencyChars.contains c = false := by decide

/-- Computation of `cleanTotalPaymentChars` on a European
`digits , digits` value: the comma becomes the decimal point. -/
theorem cleanTotalPaymentChars_comma (a b : List Char)
    (ha : ∀ c ∈ a, c ∈ digitChars) (hb : ∀ c ∈ b, c ∈ digitChars) :
    cleanTotalPaymentChars (a ++ ',' :: b) = a ++ '.' :: b := by
  have hnc : ∀ c ∈ a ++ ',' :: b, bookingCurrencyChars.contains c = false := by
    intro c hc
    rcases List.mem_append.mp hc with h1 | h1
    · exact digitChars_not_bookingCurrency c (ha c h1)
    · rcases List.mem_cons.mp h1 with h2 | h2
      · subst h2; decide
      · exact digitChars_not_bookingCurrency c (hb c h2)
  have hfilter : (a ++ ',' :: b).filter (fun c => !(bookingCurrencyChars.contains c))
      = a ++ ',' :: b :=
    List.filter_eq_self.mpr (fun c hc => by rw [hnc c hc]; rfl)
  have hws : ∀ c ∈ a ++ ',' :: b, isJsWs c = false := by
    intro c hc
    rcases List.mem_append.mp hc with h1 | h1
    · exact digitChars_not_ws c (ha c h1)
    · rcases List.mem_cons.mp h1 with h2 | h2
      · subst h2; decide
      · exact digitChars_not_ws c (hb c h2)
  have htrim : trimChars (a ++ ',' :: b) = a ++ ',' :: b :=
    trimChars_eq_self _ hws
  have hcomma : (a ++ ',' :: b).contains ',' = true := by
    rw [contains_eq_decide_mem]
    simp
  have hdot : (a ++ ',' :: b).contains '.' = false := by
    rw [contains_eq_decide_mem]
    simp only [decide_eq_false_iff_not]
    intro hmem
    rcases List.mem_append.mp hmem with h1 | h1
    · have := ha '.' h1; revert this; decide
    · rcases List.mem_cons.mp h1 with h2 | h2
      · exact absurd h2 (by decide)
      · have := hb '.' h2; revert this; decide
  unfold cleanTotalPaymentChars
  rw [hfilter, htrim]
  dsimp only
  rw [hcomma, hdot]
  rw [if_pos (show ((true && !false) = true) from rfl)]
  exact replaceFirst_comma_append b a (fun c hc => digitChars_not_comma c (ha c hc))

/-- Computation of `cleanTotalPaymentChars` on a European
`digits . digits , digits` value: dots removed, comma becomes the decimal
point. -/
theorem cleanTotalPaymentChars_thousands (a b c : List Char)
    (ha : ∀ x ∈ a, x ∈ digitChars) (hb : ∀ x ∈ b, x ∈ digitChars)
    (hc : ∀ x ∈ c, x ∈ digitChars) :
    cleanTotalPaymentChars (a ++ '.' :: (b ++ ',' :: c)) = (a ++ b) ++ '.' :: c := by
  have hall : ∀ x ∈ a ++ '.' :: (b ++ ',' :: c),
      x ∈ digitChars ∨ x = '.' ∨ x = ',' := by
    intro x hx
    rcases List.mem_append.mp hx with h1 | h1
    · exact Or.inl (ha x h1)
    · rcases List.mem_cons.mp h1 with h2 | h2
      · exact Or.inr (Or.inl h2)
      · rcases List.mem_append.mp h2 with h3 | h3
        · exact Or.inl (hb x h3)
        · rcases List.mem_cons.mp h3 with h4 | h4
          · exact Or.inr (Or.inr h4)
          · exact Or.inl (hc x h4)
  have hnc : ∀ x ∈ a ++ '.' :: (b ++ ',' :: c),
      bookingCurrencyChars.contains x = false := by
    intro x hx
    rcases hall x hx with h | h | h
    · exact digitChars_not_bookingCurrency x h
    · subst h; decide
    · subst h; decide
  have hfilter : (a ++ '.' :: (b ++ ',' :: c)).filter
      (fun x => !(bookingCurrencyChars.contains x)) = a ++ '.' :: (b ++ ',' :: c) :=
    List.filter_eq_self.mpr (fun x hx => by rw [hnc x hx]; rfl)
  have hws : ∀ x ∈ a ++ '.' :: (b ++ ',' :: c), isJsWs x = false := by
    intro x hx
    rcases hall x hx with h | h | h
    · exact digitChars_not_ws x h
    · subst h; decide
    · subst h; decide
  have htrim : trimChars (a ++ '.' :: (b ++ ',' :: c)) = a ++ '.' :: (b ++ ',' :: c) :=
    trimChars_eq_self _ hws
  have hcomma : (a ++ '.' :: (b ++ ',' :: c)).contains ',' = true := by
    rw [contains_eq_decide_mem]
    simp
  have hdot : (a ++ '.' :: (b ++ ',' :: c)).contains '.' = true := by
    rw [contains_eq_decide_mem]
    simp
  have hfilterdot : (a ++ '.' :: (b ++ ',' :: c)).filter (fun x => !(x == '.'))
      = (a ++ b) ++ ',' :: c := by
    rw [List.filter_append, List.filter_cons]
    rw [if_neg (by simp)]
    rw [List.filter_eq_self.mpr (fun x hx => by
      rw [digitChars_not_dot x (ha x hx)]; rfl)]
    rw [List.filter_append, List.filter_cons]
    rw [if_pos (by decide)]
    rw [List.filter_eq_self.mpr (fun x hx => by
      rw [digitChars_not_dot x (hb x hx)]; rfl)]
    rw [List.filter_eq_self.mpr (fun x hx => by
      rw [digitChars_not_dot x (hc x hx)]; rfl)]
    simp
  unfold cleanTotalPaymentChars
  rw [hfilter, htrim]
  dsimp only
  rw [hcomma, hdot]
  rw [if_neg (show ¬((true && !true) = true) from by decide)]
  rw [if_pos (show ((true && true) = true) from rfl)]
  rw [hfilterdot]
  refine replaceFirst_comma_append c (a ++ b) ?_
  intro x hx
  rcases List.mem_append.mp hx with h1 | h1
  · exact digitChars_not_comma x (ha x h1)
  · exact digitChars_not_comma x (hb x h1)

theorem cleanTotalPayment_of_chars (l : List Char) (a b : List Char)
    (hchars : cleanTotalPaymentChars l = a ++ '.' :: b)
    (ha : ∀ x ∈ a, x ∈ digitChars) (hb : ∀ x ∈ b, x ∈ digitChars)
    (hne : a ≠ []) :
    cleanTotalPayment (String.mk l)
      = (natOfDigits a : ℚ) + (natOfDigits b : ℚ) / (10 : ℚ) ^ b.length := by
  obtain ⟨x, xs, hax⟩ : ∃ x xs, a = x :: xs := by
    cases a with
    | nil => exact absurd rfl hne
    | cons x xs => exact ⟨x, xs, rfl⟩
  unfold cleanTotalPayment
  rw [show (String.mk l).data = l from rfl, hchars]
  rw [jsParseFloat_mk_digit_head (a ++ '.' :: b) x (xs ++ '.' :: b)
    (by rw [hax]; rfl) (by rw [hax] at ha; exact ha x (by simp))]
  rw [jsParseFloatCore_digits_frac a b ha hb hne]
  rfl

/-- C6 counterexample: the generic amount coercion `parseAmount`
(`lib/csv-parser.ts`, one of the two coercion sites the claim covers)
strips the comma of `"110,50"` as if it were a thousands separator and
returns 11050, not the 110.5 that comma-as-decimal treatment requires — so
the claim does not hold for every amount string processed by the flexible
amount coercion. -/
theorem parseAmount_comma_counterexample :
    parseAmount "110,50" = 11050 ∧ ((11050 : ℚ) ≠ 110.5) := by
  constructor
  · unfold parseAmount
    rw [if_neg (show ¬(("110,50" : String) = "") from by decide)]
    have hf : ("110,50".data.filter (fun c => !(currencyStripChars.contains c)))
        = ['1', '1', '0', '5', '0'] := by decide
    rw [hf]
    have ht : jsTrim (String.mk ['1', '1', '0', '5', '0'])
        = String.mk ['1', '1', '0', '5', '0'] := by decide
    rw [ht]
    rw [jsParseFloat_mk_digit_head ['1', '1', '0', '5', '0'] '1' ['1', '0', '5', '0']
      rfl (by decide)]
    rw [jsParseFloatCore_digits ['1', '1', '0', '5', '0'] (by decide) (by decide)]
    have hval : natOfDigits ['1', '1', '0', '5', '0'] = 11050 := by decide
    rw [hval]
    norm_num
  · norm_num

/-- C6 (amended): the comma-as-decimal / dot-as-thousands detection holds
for the Booking.com normalizer's `totalPayment` coercion (`parseBookingCSV`,
accounting module) — `"1.234,56"` coerces to 1234.56 and `"110,50"` to
110.5, and in general a digit string with a comma and no dot reads the
comma as the decimal separator while a string with both reads the dots as
thousands separators — but not for the generic `parseAmount`, which strips
commas unconditionally. -/
theorem bookingAmount_european_rule :
    cleanTotalPayment "1.234,56" = 1234.56
    ∧ cleanTotalPayment "110,50" = 110.5
    ∧ (∀ a b : List Char, (∀ c ∈ a, c ∈ digitChars) → (∀ c ∈ b, c ∈ digitChars) →
        a ≠ [] →
        cleanTotalPayment (String.mk (a ++ ',' :: b))
          = (natOfDigits a : ℚ) + (natOfDigits b : ℚ) / (10 : ℚ) ^ b.length)
    ∧ (∀ a b c : List Char, (∀ x ∈ a, x ∈ digitChars) → (∀ x ∈ b, x ∈ digitChars) →
        (∀ x ∈ c, x ∈ digitChars) → a ≠ [] →
        cleanTotalPayment (String.mk (a ++ '.' :: (b ++ ',' :: c)))
          = (natOfDigits (a ++ b) : ℚ) + (natOfDigits c : ℚ) / (10 : ℚ) ^ c.length) := by
  have hgen2 : ∀ a b : List Char, (∀ c ∈ a, c ∈ digitChars) →
      (∀ c ∈ b, c ∈ digitChars) → a ≠ [] →
      cleanTotalPayment (String.mk (a ++ ',' :: b))
        = (natOfDigits a : ℚ) + (natOfDigits b : ℚ) / (10 : ℚ) ^ b.length := by
    intro a b ha hb hne
    exact cleanTotalPayment_of_chars _ a b
      (cleanTotalPaymentChars_comma a b ha hb) ha hb hne
  have hgen3 : ∀ a b c : List Char, (∀ x ∈ a, x ∈ digitChars) →
      (∀ x ∈ b, x ∈ digitChars) → (∀ x ∈ c, x ∈ digitChars) → a ≠ [] →
      cleanTotalPayment (String.mk (a ++ '.' :: (b ++ ',' :: c)))
        = (natOfDigits (a ++ b) : ℚ) + (natOfDigits c : ℚ) / (10 : ℚ) ^ c.length := by
    intro a b c ha hb hc hne
    refine cleanTotalPayment_of_chars _ (a ++ b) c
      (cleanTotalPaymentChars_thousands a b c ha hb hc) ?_ hc ?_
    · intro x hx
      rcases List.mem_append.mp hx with h | h
      · exact ha x h
      · exact hb x h
    · cases a with
      | nil => exact absurd rfl hne
      | cons x xs => simp
  refine ⟨?_, ?_, hgen2, hgen3⟩
  · have h := hgen3 ['1'] ['2', '3', '4'] ['5', '6']
      (by decide) (by decide) (by decide) (by decide)
    rw [show ("1.234,56" : String)
        = String.mk (['1'] ++ '.' :: (['2', '3', '4'] ++ ',' :: ['5', '6'])) from rfl]
    rw [h]
    have h1 : natOfDigits (['1'] ++ ['2', '3', '4']) = 1234 := by decide
    have h2 : natOfDigits ['5', '6'] = 56 := by decide
    rw [h1, h2]
    norm_num
  · have h := hgen2 ['1', '1', '0'] ['5', '0'] (by decide) (by decide) (by decide)
    rw [show ("110,50" : String)
        = String.mk (['1', '1', '0'] ++ ',' :: ['5', '0']) from rfl]
    rw [h]
    have h1 : natOfDigits ['1', '1', '0'] = 110 := by decide
    have h2 : natOfDigits ['5', '0'] = 50 := by decide
    rw [h1, h2]
    norm_num

/-- Witness for C6's general rules at the concrete input `"9,5"`. -/
theorem bookingAmount_european_rule_witness :
    cleanTotalPayment (String.mk (['9'] ++ ',' :: ['5']))
      = (natOfDigits ['9'] : ℚ)
        + (natOfDigits ['5'] : ℚ) / (10 : ℚ) ^ (['5'] : List Char).length :=
  bookingAmount_european_rule.2.2.1 ['9'] ['5'] (by decide) (by decide) (by decide)

/-! ### JS `Date` model (UTC environment) -/

/-- Days since the Unix epoch of a Gregorian civil date
(Hinnant's `days_from_civil`). -/
def daysFromCivil (y m d : ℤ) : ℤ :=
  let y1 := if m ≤ 2 then y - 1 else y
  let era := Int.fdiv y1 400
  let yoe := y1 - era * 400
  let mp := if m > 2 then m - 3 else m + 9
  let doy := Int.fdiv (153 * mp + 2) 5 + d - 1
  let doe := yoe * 365 + Int.fdiv yoe 4 - Int.fdiv yoe 100 + doy
  era * 146097 + doe - 719468

/-- Gregorian civil date from days since the Unix epoch
(Hinnant's `civil_from_days`). -/
def civilFromDays (z : ℤ) : ℤ × ℤ × ℤ :=
  let n := z + 719468
  let era := Int.fdiv n 146097
  let doe := n - era * 146097
  let yoe := Int.fdiv (doe - Int.fdiv doe 1460 + Int.fdiv doe 36524
      - Int.fdiv doe 146096) 365
  let y := yoe + era * 400
  let doy := doe - (365 * yoe + Int.fdiv yoe 4 - Int.fdiv yoe 100)
  let mp := Int.fdiv (5 * doy + 2) 153
  let d := doy - Int.fdiv (153 * mp + 2) 5 + 1
  let m := if mp < 10 then mp + 3 else mp - 9
  (if m ≤ 2 then y + 1 else y, m, d)

def isLeapYear (y : ℤ) : Bool := y % 4 == 0 && (y % 100 != 0 || y % 400 == 0)

def daysInMonth (y m : ℤ) : ℤ :=
  if m = 2 then (if isLeapYear y then 29 else 28)
  else if m = 4 ∨ m = 6 ∨ m = 9 ∨ m = 11 then 30
  else 31

/-- Parse a strict ISO `YYYY-MM-DD` character list into a civil date,
validating ranges the way JS `Date` validates ISO date strings. -/
def parseISOYMD (l : List Char) : Option (ℤ × ℤ × ℤ) :=
  match l with
  | [y1, y2, y3, y4, s1, m1, m2, s2, d1, d2] =>
    if (s1 == '-') && (s2 == '-')
        && [y1, y2, y3, y4, m1, m2, d1, d2].all isDigitChar then
      let y : ℤ := natOfDigits [y1, y2, y3, y4]
      let m : ℤ := natOfDigits [m1, m2]
      let d : ℤ := natOfDigits [d1, d2]
      if 1 ≤ y ∧ 1 ≤ m ∧ m ≤ 12 ∧ 1 ≤ d ∧ d ≤ daysInMonth y m then some (y, m, d)
      else none
    else none
  | _ => none

/-- Split a character list at a separator (JS `String.split` with a
single-character separator). -/
def splitChar : List Char → Char → List (List Char)
  | [], _ => [[]]
  | c :: cs, sep =>
    match splitChar cs sep with
    | h :: t => if c == sep then [] :: h :: t else (c :: h) :: t
    | [] => [[c]]

def monthFromName (s : List Char) : Option ℤ :=
  if s = "Jan".data then some 1
  else if s = "Feb".data then some 2
  else if s = "Mar".data then some 3
  else if s = "Apr".data then some 4
  else if s = "May".data then some 5
  else if s = "Jun".data then some 6
  else if s = "Jul".data then some 7
  else if s = "Aug".data then some 8
  else if s = "Sep".data then some 9
  else if s = "Oct".data then some 10
  else if s = "Nov".data then some 11
  else if s = "Dec".data then some 12
  else none

/-- JS `new Date(s)` in a UTC environment, for the two formats that occur
in this code base's data flow: ISO `YYYY-MM-DD` and `D MMM YYYY`
(e.g. "30 Jun 2025").  Other formats are treated as invalid dates. -/
def parseJsDate (s : String) : Option (ℤ × ℤ × ℤ) :=
  match parseISOYMD s.data with
  | some ymd => some ymd
  | none =>
    match splitChar s.data ' ' with
    | [dpart, mpart, ypart] =>
      if dpart ≠ [] && dpart.length ≤ 2 && dpart.all isDigitChar
          && (ypart.length == 4) && ypart.all isDigitChar then
        match monthFromName mpart with
        | some m =>
          let y : ℤ := natOfDigits ypart
          let d : ℤ := natOfDigits dpart
          if 1 ≤ y ∧ 1 ≤ d ∧ d ≤ daysInMonth y m then some (y, m, d) else none
        | none => none
      else none
    | _ => none

def pad2 (n : ℤ) : String := if n < 10 then "0" ++ toString n else toString n

def pad4 (n : ℤ) : String :=
  if n < 10 then "000" ++ toString n
  else if n < 100 then "00" ++ toString n
  else if n < 1000 then "0" ++ toString n
  else toString n

/-- `YYYY-MM-DD` rendering of a civil date (the date part of
`Date.prototype.toISOString`). -/
def formatISODate (ymd : ℤ × ℤ × ℤ) : String :=
  pad4 ymd.1 ++ "-" ++ pad2 ymd.2.1 ++ "-" ++ pad2 ymd.2.2

/-- `new Date(s).toISOString().split('T')[0]`, `none` for an invalid date. -/
def jsDateToISO (s : String) : Option String :=
  (parseJsDate s).map formatISODate

/-- Days since epoch of `new Date(s)`. -/
def jsDateEpochDays (s : String) : Option ℤ :=
  (parseJsDate s).map (fun ymd => daysFromCivil ymd.1 ymd.2.1 ymd.2.2)

/-- `new Date(s).getTime()` in milliseconds, `none` for `NaN`. -/
def jsDateMs (s : String) : Option ℤ :=
  (jsDateEpochDays s).map (· * 86400000)

/-- `new Date(new Date(s).getTime() - 86400000).toISOString().split('T')[0]`:
one day earlier, throwing (`RangeError`) on an invalid date. -/
def jsDayBeforeISO (s : String) : Except String String :=
  match jsDateEpochDays s with
  | some d => .ok (formatISODate (civilFromDays (d - 1)))
  | none => .error "RangeError: Invalid time value"

/-! ### Booking.com payout normalizer (`lib/payout-csv-parser.ts`) -/

/-- The columns extracted from one payout CSV row. -/
structure PayoutCSVRow where
  type : String
  referenceNumber : String
  checkIn : String
  checkout : String
  guestName : String
  reservationStatus : String
  currency : String
  paymentStatus : String
  amount : String
deriving DecidableEq, Repr

/-- The canonical `CSVRow` record consumed by invoice generation. -/
structure CSVRow where
  reservationId : String
  guestName : String
  checkInDate : String
  checkOutDate : String
  amountPaidGross : ℚ
  currency : String
  guestAddress : Option String
  country : Option String
  nights : Option ℤ
deriving DecidableEq, Repr

/-- `parsePayoutDate` of the payout parser: empty → empty; otherwise trim,
`new Date`, ISO date part on success, throw on an invalid date. -/
def parsePayoutDate (s : String) : Except String String :=
  if s = "" then .ok ""
  else
    match jsDateToISO (jsTrim s) with
    | some iso => .ok iso
    | none => .error ("Invalid date format: " ++ s)

/-- `parsePayoutAmount`: empty → 0; strip every character except digits,
`.` and `-`; `parseFloat`; throw on `NaN`. -/
def parsePayoutAmount (s : String) : Except String ℚ :=
  if s = "" then .ok 0
  else
    match jsParseFloat (String.mk
        (s.data.filter (fun c => isDigitChar c || c == '.' || c == '-'))) with
    | some q => .ok q
    | none => .error ("Invalid amount format: " ++ s)

/-- Embedding of `transformPayoutRowToCSVRow`: nights =
`max(1, ceil((checkout - checkin) / 86400000))` over `new Date(..).getTime()`
(`none` = `NaN` when either date is invalid), then the dates are re-parsed
via `parsePayoutDate` (which throws on invalid input) and the amount via
`parsePayoutAmount`. -/
def transformPayoutRowToCSVRow (payoutRow : PayoutCSVRow) : Except String CSVRow :=
  let nights : Option ℤ :=
    match jsDateMs payoutRow.checkIn, jsDateMs payoutRow.checkout with
    | some m1, some m2 => some (max 1 ⌈((m2 - m1 : ℤ) : ℚ) / 86400000⌉)
    | _, _ => none
  match parsePayoutDate payoutRow.checkIn with
  | .error e => .error e
  | .ok ci =>
    match parsePayoutDate payoutRow.checkout with
    | .error e => .error e
    | .ok co =>
      match parsePayoutAmount payoutRow.amount with
      | .error e => .error e
      | .ok amt =>
        .ok { reservationId := payoutRow.referenceNumber,
              guestName := if payoutRow.guestName = "" then "Booking.com Guest"
                else payoutRow.guestName,
              checkInDate := ci, checkOutDate := co,
              amountPaidGross := amt,
              currency := if payoutRow.currency = "" then "EUR"
                else payoutRow.currency,
              guestAddress := none, country := none, nights := nights }

/-- C7: for every payout row with parseable check-in and checkout dates,
the normalizer sets `nights = max(1, ceil((checkout - checkin) in days))`;
a checkout on or before check-in yields `nights = 1`. -/
theorem payoutNights_formula (row : PayoutCSVRow) (m1 m2 : ℤ)
    (h1 : jsDateMs row.checkIn = some m1) (h2 : jsDateMs row.checkout = some m2) :
    ∀ r, transformPayoutRowToCSVRow row = .ok r →
      r.nights = some (max 1 ⌈((m2 - m1 : ℤ) : ℚ) / 86400000⌉)
      ∧ (m2 ≤ m1 → r.nights = some 1) := by
  intro r hr
  unfold transformPayoutRowToCSVRow at hr
  rw [h1, h2] at hr
  dsimp only at hr
  rcases hci : parsePayoutDate row.checkIn with e | ci <;> rw [hci] at hr <;>
    dsimp only at hr
  · exact absurd hr (by simp)
  rcases hco : parsePayoutDate row.checkout with e | co <;> rw [hco] at hr <;>
    dsimp only at hr
  · exact absurd hr (by simp)
  rcases hamt : parsePayoutAmount row.amount with e | amt <;> rw [hamt] at hr <;>
    dsimp only at hr
  · exact absurd hr (by simp)
  have hrec := (Except.ok.injEq _ _).mp hr
  subst hrec
  constructor
  · rfl
  · intro hle
    have hq : ((m2 - m1 : ℤ) : ℚ) / 86400000 ≤ 0 := by
      apply div_nonpos_of_nonpos_of_nonneg
      · exact_mod_cast sub_nonpos_of_le hle
      · norm_num
    have hceil : ⌈((m2 - m1 : ℤ) : ℚ) / 86400000⌉ ≤ 0 :=
      Int.ceil_le.mpr (by exact_mod_cast hq)
    show some (max 1 ⌈((m2 - m1 : ℤ) : ℚ) / 86400000⌉) = some 1
    rw [max_eq_left (le_trans hceil (by norm_num))]

/-- The payout row of the spec's scenario: check-in 2025-06-30, checkout
2025-07-02. -/
def payoutRow0 : PayoutCSVRow :=
  { type := "Reservation", referenceNumber := "123", checkIn := "2025-06-30",
    checkout := "2025-07-02", guestName := "Jane Doe",
    reservationStatus := "ok", currency := "EUR", paymentStatus := "Paid",
    amount := "110.00" }

/-- Witness for C7: the scenario row yields `nights = 2`. -/
theorem payoutNights_formula_witness :
    ∃ r, transformPayoutRowToCSVRow payoutRow0 = .ok r ∧ r.nights = some 2 := by
  have hamt : parsePayoutAmount "110.00"
      = .ok ((natOfDigits ['1', '1', '0'] : ℚ)
          + (natOfDigits ['0', '0'] : ℚ) / (10 : ℚ) ^ (['0', '0'] : List Char).length) := by
    unfold parsePayoutAmount
    rw [if_neg (show ¬(("110.00" : String) = "") from by decide)]
    have hfil : "110.00".data.filter (fun c => isDigitChar c || c == '.' || c == '-')
        = ['1', '1', '0'] ++ '.' :: ['0', '0'] := by decide
    rw [hfil]
    rw [jsParseFloat_mk_digit_head (['1', '1', '0'] ++ '.' :: ['0', '0']) '1'
      (['1', '0'] ++ '.' :: ['0', '0']) rfl (by decide)]
    rw [jsParseFloatCore_digits_frac ['1', '1', '0'] ['0', '0']
      (by decide) (by decide) (by decide)]
  have hpd : ∀ s : String, s ≠ "" → ∀ iso, jsDateToISO (jsTrim s) = some iso →
      parsePayoutDate s = .ok iso := by
    intro s hne iso h
    unfold parsePayoutDate
    rw [if_neg hne, h]
  have htr : transformPayoutRowToCSVRow payoutRow0
      = .ok { reservationId := "123", guestName := "Jane Doe",
              checkInDate := "2025-06-30", checkOutDate := "2025-07-02",
              amountPaidGross := (natOfDigits ['1', '1', '0'] : ℚ)
                + (natOfDigits ['0', '0'] : ℚ) / (10 : ℚ) ^ (['0', '0'] : List Char).length,
              currency := "EUR", guestAddress := none, country := none,
              nights := some (max 1
                ⌈((1751414400000 - 1751241600000 : ℤ) : ℚ) / 86400000⌉) } := by
    unfold transformPayoutRowToCSVRow payoutRow0
    dsimp only
    rw [show jsDateMs "2025-06-30" = some 1751241600000 from by decide,
      show jsDateMs "2025-07-02" = some 1751414400000 from by decide]
    dsimp only
    rw [hpd "2025-06-30" (by decide) "2025-06-30" (by decide)]
    dsimp only
    rw [hpd "2025-07-02" (by decide) "2025-07-02" (by decide)]
    dsimp only
    rw [hamt]
    dsimp only
    rw [if_neg (show ¬(("Jane Doe" : String) = "") from by decide),
      if_neg (show ¬(("EUR" : String) = "") from by decide)]
  refine ⟨_, htr, ?_⟩
  have h := payoutNights_formula payoutRow0 1751241600000 1751414400000
    (by decide) (by decide) _ htr
  rw [h.1]
  have hq : ((1751414400000 - 1751241600000 : ℤ) : ℚ) / 86400000 = 2 := by
    norm_num
  rw [hq]
  norm_num

deriving instance DecidableEq for Except

/-! ### Tokenizers and the fewer-than-two-rows rejection -/

/-- Quote-aware row accumulation of `parseBookingCSV`: characters are
folded into the current row; a newline outside quotes terminates the row;
rows are trimmed and blank rows discarded (also for the trailing row). -/
def splitRowsGo (inQ : Bool) (acc : List Char) : List Char → List (List Char)
  | [] => if (trimChars acc).isEmpty then [] else [trimChars acc]
  | c :: cs =>
    if c == '"' then splitRowsGo (!inQ) (acc ++ ['"']) cs
    else if c == '\n' && !inQ then
      (if (trimChars acc).isEmpty then [] else [trimChars acc]) ++ splitRowsGo inQ [] cs
    else splitRowsGo inQ (acc ++ [c]) cs

/-- The logical rows `parseBookingCSV` tokenizes its input into. -/
def bookingRowsOf (s : String) : List String :=
  (splitRowsGo false [] s.data).map String.mk

/-- The tokenization stage of `parseBookingCSV` with its only file-level
check: fewer than 2 rows rejects the whole file. -/
def parseBookingTokenize (s : String) : Except String (List String) :=
  let rows := bookingRowsOf s
  if rows.length < 2 then
    .error "CSV must contain at least a header row and one data row"
  else .ok rows

/-- The rows `parseBMDList` tokenizes its input into: split on newlines,
trim, drop blanks. -/
def bmdRowsOf (s : String) : List String :=
  (((splitChar s.data '\n').map trimChars).filter (fun r => !r.isEmpty)).map String.mk

/-- The tokenization stage of `parseBMDList`: empty content returns an
empty result WITHOUT error (early `return []` in the source); otherwise
fewer than 2 rows rejects the whole file. -/
def parseBMDTokenize (s : String) : Except String (List String) :=
  if s = "" then .ok []
  else
    let rows := bmdRowsOf s
    if rows.length < 2 then
      .error "BMD List CSV must contain at least a header row and one data row"
    else .ok rows

/-- C8 counterexample: for the empty input text — whose tokenization yields
zero rows — `parseBMDList` does not throw: it returns an empty result via
its early `return []` guard, so the fewer-than-2-rows rejection is not
raised by every parse entry point on every such input. -/
theorem bmdTokenize_empty_counterexample :
    parseBMDTokenize "" = .ok [] ∧ bmdRowsOf "" = [] ∧ ([] : List String).length < 2 := by
  refine ⟨rfl, ?_, by norm_num⟩
  decide

/-- C8 (amended): an input tokenizing to fewer than 2 non-blank rows is
rejected with a descriptive error by `parseBookingCSV`, and by
`parseBMDList` for every nonempty input text (empty input short-circuits to
an empty result instead); this is the only file-level failure of the
tokenizers — with at least 2 rows both return the rows without error. -/
theorem tokenizer_min_rows_policy :
    (∀ s : String,
      ((bookingRowsOf s).length < 2 →
        parseBookingTokenize s
          = .error "CSV must contain at least a header row and one data row")
      ∧ (2 ≤ (bookingRowsOf s).length →
        parseBookingTokenize s = .ok (bookingRowsOf s)))
    ∧ (∀ s : String, s ≠ "" →
      ((bmdRowsOf s).length < 2 →
        parseBMDTokenize s
          = .error "BMD List CSV must contain at least a header row and one data row")
      ∧ (2 ≤ (bmdRowsOf s).length →
        parseBMDTokenize s = .ok (bmdRowsOf s))) := by
  constructor
  · intro s
    constructor
    · intro h
      unfold parseBookingTokenize
      rw [if_pos h]
    · intro h
      unfold parseBookingTokenize
      rw [if_neg (by omega)]
  · intro s hne
    constructor
    · intro h
      unfold parseBMDTokenize
      rw [if_neg hne, if_pos h]
    · intro h
      unfold parseBMDTokenize
      rw [if_neg hne, if_neg (by omega)]

/-- Witness for C8 at concrete inputs: a two-row file passes both
tokenizers; a blank-only file is rejected by the booking tokenizer. -/
theorem tokenizer_min_rows_policy_witness :
    parseBookingTokenize "a,b\nc,d" = .ok (bookingRowsOf "a,b\nc,d")
    ∧ parseBMDTokenize "x;y\nz;w" = .ok (bmdRowsOf "x;y\nz;w")
    ∧ parseBookingTokenize " \n " =
        .error "CSV must contain at least a header row and one data row" := by
  refine ⟨?_, ?_, ?_⟩
  · exact (tokenizer_min_rows_policy.1 "a,b\nc,d").2 (by decide)
  · exact (tokenizer_min_rows_policy.2 "x;y\nz;w" (by decide)).2 (by decide)
  · exact (tokenizer_min_rows_policy.1 " \n ").1 (by decide)

/-! ### Payout normalizer of the accounting module (`parsePayoutCSV`) -/

/-- `replace(/"/g, '')`: remove every double quote. -/
def stripQuotesChars (l : List Char) : List Char := l.filter (fun c => !(c == '"'))

/-- `header.forEach((h, i) => rowData[h] = values[i] || '')` followed by a
key lookup: the LAST occurrence of a duplicated header wins, missing value
cells default to the empty string. -/
def rowField (hdr vals : List String) (key : String) : String :=
  hdr.enum.foldl (fun acc iv => if iv.2 = key then vals.getD iv.1 "" else acc) ""

/-- JS `amount <= 0` where `amount` may be `NaN` (`none`): `NaN <= 0` is
false. -/
def jsLeZero (x : Option ℚ) : Prop :=
  match x with
  | some a => a ≤ 0
  | none => False

instance (x : Option ℚ) : Decidable (jsLeZero x) :=
  match x with
  | some a => (inferInstance : Decidable (a ≤ 0))
  | none => isFalse (fun h => h)

/-- The `BookingCSVRow` record produced by the accounting module's parsers.
`totalPayment` is `Option ℚ` because `parseFloat` can yield `NaN`. -/
structure BookingCSVRow where
  propertyName : String
  bookerName : String
  departure : String
  totalPayment : Option ℚ
  location : String
  arrival : String
  currency : String
  reservationNumber : String
deriving DecidableEq, Repr

/-- Rows of the payout CSV: split on newlines, trim, drop blanks. -/
def payoutTokenRows (csvContent : String) : List (List Char) :=
  ((splitChar csvContent.data '\n').map trimChars).filter (fun r => !r.isEmpty)

/-- Header cells: split the first row on commas, strip quotes, trim. -/
def payoutHeaderOf (rows : List (List Char)) : List String :=
  (splitChar (rows.headD []) ',').map (fun h => String.mk (trimChars (stripQuotesChars h)))

/-- One data row of `parsePayoutCSV`: rows without a parseable `Checkout`,
rows outside the target month and rows with coerced amount `<= 0` are all
skipped by `continue` — the function records NOTHING about them (`none`);
accepted rows become `BookingCSVRow`s. -/
def payoutProcessRow (header : List String) (targetMonth : Option String)
    (rowChars : List Char) : Option BookingCSVRow :=
  let values := (splitChar rowChars ',').map
    (fun v => String.mk (trimChars (stripQuotesChars v)))
  let field := fun key => rowField header values key
  let checkout := field "Checkout"
  if checkout = "" then none
  else
    match jsDateToISO (jsTrim checkout) with
    | none => none
    | some checkoutDate =>
      match targetMonth with
      | some tm =>
        if checkoutDate.take 7 ≠ tm then none
        else payoutAcceptRow field checkoutDate
      | none => payoutAcceptRow field checkoutDate
where
  payoutAcceptRow (field : String → String) (checkoutDate : String) :
      Option BookingCSVRow :=
    let amountStr := if field "Amount" = "" then "0" else field "Amount"
    let amount := jsParseFloat amountStr
    if jsLeZero amount then none
    else some
      { propertyName := "Property " ++ (if field "Reference number" = "" then "Unknown"
          else field "Reference number"),
        bookerName := if field "Guest name" = "" then "Unknown Guest"
          else field "Guest name",
        departure := checkoutDate,
        totalPayment := amount,
        location := "",
        arrival := (jsDateToISO (jsTrim (field "Check-in"))).getD "",
        currency := if field "Currency" = "" then "EUR" else field "Currency",
        reservationNumber := field "Reference number" }

/-- `payoutRows.sort((a, b) => a.departure.localeCompare(b.departure))`. -/
def sortByDeparture (l : List BookingCSVRow) : List BookingCSVRow :=
  l.mergeSort (fun a b => a.departure ≤ b.departure)

/-- Embedding of the accounting module's `parsePayoutCSV`: its return value
is ONLY the list of accepted rows — the function has no invalid-row side
channel at all. -/
def parsePayoutCSV (csvContent : String) (targetMonth : Option String) :
    Except String (List BookingCSVRow) :=
  let rows := payoutTokenRows csvContent
  if rows.length < 2 then
    .error "CSV must contain at least a header row and one data row"
  else
    .ok (sortByDeparture
      ((rows.tail).filterMap (payoutProcessRow (payoutHeaderOf rows) targetMonth)))

/-! ### Generic CSV parser row handler (`lib/csv-parser.ts`) -/

/-- The spelling table `COLUMN_MAPPINGS`. -/
def COLUMN_MAPPINGS : List (String × List String) :=
  [("reservationId", ["Reference number", "Reservation ID", "Booking ID",
      "ReservationID", "BookingID", "ID"]),
   ("guestName", ["Guest name", "Guest Name", "Guest", "Customer Name",
      "Customer", "Name"]),
   ("checkInDate", ["Check-in", "Check-in Date", "Arrival", "CheckIn",
      "Check In Date"]),
   ("checkOutDate", ["Checkout", "Check-out Date", "Departure", "Check-out",
      "CheckOut", "Check Out Date"]),
   ("amountPaidGross", ["Amount", "Gross Amount", "Total", "Total Amount",
      "Price", "Gross Price"]),
   ("currency", ["Currency", "Curr"]),
   ("guestAddress", ["Address", "Guest Address", "Customer Address"]),
   ("country", ["Country", "Guest Country", "Customer Country"]),
   ("nights", ["Nights", "Number of Nights", "Stay Duration"])]

/-- `findColumnName`: first acceptable spelling (in declaration order) that
matches a header, case-insensitively and whitespace-trimmed. -/
def findColumnName (headers : List String) (possibleNames : List String) :
    Option String :=
  possibleNames.findSome? (fun possible =>
    headers.find? (fun header =>
      jsTrim (jsToLower header) == jsTrim (jsToLower possible)))

/-- The column mapping built in the `headers` event of `parseCSV`. -/
def buildColumnMapping (headers : List String) : List (String × String) :=
  COLUMN_MAPPINGS.filterMap (fun fm =>
    (findColumnName headers fm.2).map (fun col => (fm.1, col)))

/-- `mapRow`: canonical field name → raw cell value, for the resolved
columns present in the raw row. -/
def mapRow (rawRow : List (String × String))
    (columnMapping : List (String × String)) : List (String × String) :=
  columnMapping.filterMap (fun fc =>
    (List.lookup fc.2 rawRow).map (fun v => (fc.1, v)))

/-- `extractCurrency`: currency code or symbol found in a price string,
defaulting to EUR.  (The source uses a word-boundary regex over known
codes; this model searches for the lower-cased code as a substring, which
agrees on the price strings this pipeline produces.) -/
def extractCurrency (priceString : String) : String :=
  if priceString = "" then "EUR"
  else
    let lower := jsToLower priceString
    if jsIncludes lower "eur" then "EUR"
    else if jsIncludes lower "usd" then "USD"
    else if jsIncludes lower "gbp" then "GBP"
    else if jsIncludes lower "chf" then "CHF"
    else if jsIncludes lower "cad" then "CAD"
    else if jsIncludes lower "aud" then "AUD"
    else if jsIncludes lower "jpy" then "JPY"
    else if jsIncludes lower "cny" then "CNY"
    else if jsIncludes priceString "€" then "EUR"
    else if jsIncludes priceString "$" then "USD"
    else if jsIncludes priceString "£" then "GBP"
    else "EUR"

/-- JS `parseInt` (base 10, no exponent): sign and digit run. -/
def jsParseInt (s : String) : Option ℤ :=
  match s.data.dropWhile isJsWs with
  | [] => none
  | c :: rest =>
    let (sgn, digits) : ℤ × List Char :=
      if c == '-' then (-1, rest.takeWhile isDigitChar)
      else if c == '+' then (1, rest.takeWhile isDigitChar)
      else (1, (c :: rest).takeWhile isDigitChar)
    if digits.isEmpty then none else some (sgn * (natOfDigits digits : ℤ))

/-- Shape test `^\d{4}-\d{2}-\d{2}$` (no range validation — the source
returns such strings as-is). -/
def isISOShape (l : List Char) : Bool :=
  match l with
  | [y1, y2, y3, y4, s1, m1, m2, s2, d1, d2] =>
    (s1 == '-') && (s2 == '-') && [y1, y2, y3, y4, m1, m2, d1, d2].all isDigitChar
  | _ => false

/-- Shape test `^\d{2}/\d{2}/\d{4}$` (or with `.` as separator). -/
def isDayFirstShape (l : List Char) (sep : Char) : Bool :=
  match l with
  | [d1, d2, s1, m1, m2, s2, y1, y2, y3, y4] =>
    (s1 == sep) && (s2 == sep) && [d1, d2, m1, m2, y1, y2, y3, y4].all isDigitChar
  | _ => false

/-- Shape test `^\d{1,2}\s+\w{3}\s+\d{4}$`. -/
def isDMMMShape (l : List Char) : Bool :=
  match (splitChar l ' ').filter (fun w => !w.isEmpty) with
  | [d, w, y] =>
    !d.isEmpty && d.length ≤ 2 && d.all isDigitChar
      && w.length == 3 && y.length == 4 && y.all isDigitChar
  | _ => false

/-- `new Date(year, month - 1, day)` in a UTC environment: JS normalizes
out-of-range months and days by rolling over. -/
def jsDateFromParts (y m d : ℤ) : ℤ :=
  let mz := m - 1
  let y1 := y + Int.fdiv mz 12
  let m1 := Int.emod mz 12 + 1
  daysFromCivil y1 m1 1 + (d - 1)

/-- Embedding of `parseDate` (generic CSV parser): ISO passthrough without
validation; `D MMM YYYY` via `new Date`; `DD/MM/YYYY` and `DD.MM.YYYY`
day-first via `new Date(y, m-1, d)`; generic `new Date` fallback; throws
`Invalid date format` when the result is an invalid date. -/
def parseDate (dateString : String) : Except String String :=
  if dateString = "" then .ok ""
  else
    let cleaned := jsTrim dateString
    if isISOShape cleaned.data then .ok cleaned
    else if isDMMMShape cleaned.data then
      match jsDateToISO cleaned with
      | some iso => .ok iso
      | none => .error ("Invalid date format: " ++ dateString)
    else if isDayFirstShape cleaned.data '/' then
      match splitChar cleaned.data '/' with
      | [d, m, y] =>
        .ok (formatISODate (civilFromDays
          (jsDateFromParts (natOfDigits y) (natOfDigits m) (natOfDigits d))))
      | _ => .error ("Invalid date format: " ++ dateString)
    else if isDayFirstShape cleaned.data '.' then
      match splitChar cleaned.data '.' with
      | [d, m, y] =>
        .ok (formatISODate (civilFromDays
          (jsDateFromParts (natOfDigits y) (natOfDigits m) (natOfDigits d))))
      | _ => .error ("Invalid date format: " ++ dateString)
    else
      match jsDateToISO cleaned with
      | some iso => .ok iso
      | none => .error ("Invalid date format: " ++ dateString)

/-- Embedding of `validateAndTransformRow` (field coercion plus the Zod
`CSVRowSchema` checks; the Zod error text is abbreviated to the schema's
per-field message). -/
def validateAndTransformRow (mapped : List (String × String)) :
    Except String CSVRow := do
  let amountField := (List.lookup "amountPaidGross" mapped).getD ""
  let currency0 := (List.lookup "currency" mapped).getD ""
  let currency1 := if currency0 = "" ∧ amountField ≠ "" then
      extractCurrency amountField else currency0
  let reservationId := (List.lookup "reservationId" mapped).getD ""
  let guestName0 := (List.lookup "guestName" mapped).getD ""
  let checkInDate ← match List.lookup "checkInDate" mapped with
    | some v => if v = "" then pure "" else parseDate v
    | none => pure ""
  let checkOutDate ← match List.lookup "checkOutDate" mapped with
    | some v => if v = "" then pure "" else parseDate v
    | none => pure ""
  let amountPaidGross := if amountField = "" then 0 else parseAmount amountField
  let nights ← match List.lookup "nights" mapped with
    | some v =>
      if v = "" then pure (none : Option ℤ)
      else match jsParseInt v with
        | some n => pure (some n)
        | none => Except.error "Expected number, received nan"
    | none => pure (none : Option ℤ)
  if reservationId = "" then Except.error "Reservation ID is required"
  else if checkInDate = "" then Except.error "Check-in date is required"
  else if checkOutDate = "" then Except.error "Check-out date is required"
  else if ¬ (0 < amountPaidGross) then Except.error "Amount must be positive"
  else
    pure { reservationId := reservationId,
           guestName := if guestName0 = "" then "Booking.com Guest" else guestName0,
           checkInDate := checkInDate, checkOutDate := checkOutDate,
           amountPaidGross := amountPaidGross,
           currency := if currency1 = "" then "EUR" else currency1,
           guestAddress := match List.lookup "guestAddress" mapped with
             | some v => if v = "" then none else some v
             | none => none,
           country := match List.lookup "country" mapped with
             | some v => if v = "" then none else some v
             | none => none,
           nights := nights }

/-- Outcome of the `data` handler of `parseCSV` for one raw row. -/
inductive RowDecision where
  | valid (r : CSVRow)
  | invalid (errs : List String)
  | skipped
deriving DecidableEq, Repr

/-- `mappedRow.amountPaidGross?.toString() || '0'`. -/
def grossFieldString (mapped : List (String × String)) : String :=
  match List.lookup "amountPaidGross" mapped with
  | some v => if v = "" then "0" else v
  | none => "0"

/-- Embedding of the per-row `data` handler of `parseCSV`: optional
header-repeat skip (first row only), `Type` filter, amount-sign filter
routing to `invalidRows` with a reason, then validation. -/
def parseCSVRowStep (headers : List String)
    (columnMapping : List (String × String)) (isFirstRow : Bool)
    (rawRow : List (String × String)) : RowDecision :=
  if isFirstRow && (match rawRow.head? with
      | some kv => (jsToLower kv.2 != "")
          && headers.any (fun h => jsIncludes (jsToLower h) (jsToLower kv.2))
      | none => false) then .skipped
  else if (match List.lookup "Type" rawRow with
      | some t => (t != "") && (t != "Reservation")
      | none => false) then .skipped
  else
    let mapped := mapRow rawRow columnMapping
    let amount := parseAmount (grossFieldString mapped)
    if amount ≤ 0 then
      .invalid ["Skipped: Negative amount (likely refund/cancellation)"]
    else
      match validateAndTransformRow mapped with
      | .ok r => .valid r
      | .error e => .invalid [e]

theorem payoutAcceptRow_pos (field : String → String) (co : String)
    (r : BookingCSVRow)
    (h : payoutProcessRow.payoutAcceptRow field co = some r) :
    ¬ jsLeZero r.totalPayment := by
  unfold payoutProcessRow.payoutAcceptRow at h
  dsimp only at h
  by_cases hle : jsLeZero (jsParseFloat (if field "Amount" = "" then "0"
      else field "Amount"))
  · rw [if_pos hle] at h
    exact absurd h (by simp)
  · rw [if_neg hle] at h
    have hr := (Option.some.injEq _ _).mp h
    subst hr
    exact hle

theorem payoutProcessRow_pos (header : List String) (tm : Option String)
    (rowChars : List Char) (r : BookingCSVRow)
    (h : payoutProcessRow header tm rowChars = some r) :
    ¬ jsLeZero r.totalPayment := by
  unfold payoutProcessRow at h
  dsimp only at h
  split at h
  · exact absurd h (by simp)
  · split at h
    · exact absurd h (by simp)
    · split at h
      · split at h
        · exact absurd h (by simp)
        · exact payoutAcceptRow_pos _ _ _ h
      · exact payoutAcceptRow_pos _ _ _ h

/-- C3 (amended): rows whose coerced gross amount is `<= 0` never reach
`validRows` in either payout normalizer, and the generic parser
(`parseCSV`, `lib/csv-parser.ts`) diverts them to `invalidRows` with the
human-readable reason `"Skipped: Negative amount (likely
refund/cancellation)"`; but the accounting module's `parsePayoutCSV`
silently skips them with `continue` — its result carries no invalid-row
record at all. -/
theorem amountSignFilter_policy :
    (∀ (content : String) (tm : Option String) (out : List BookingCSVRow),
      parsePayoutCSV content tm = .ok out →
      ∀ r ∈ out, ¬ jsLeZero r.totalPayment)
    ∧ (∀ (headers : List String) (columnMapping : List (String × String))
        (rawRow : List (String × String)),
      (∀ t, List.lookup "Type" rawRow = some t → t = "" ∨ t = "Reservation") →
      parseAmount (grossFieldString (mapRow rawRow columnMapping)) ≤ 0 →
      parseCSVRowStep headers columnMapping false rawRow
        = .invalid ["Skipped: Negative amount (likely refund/cancellation)"]) := by
  constructor
  · intro content tm out hok r hr
    unfold parsePayoutCSV at hok
    dsimp only at hok
    split at hok
    · exact absurd hok (by simp)
    · have hout := (Except.ok.injEq _ _).mp hok
      subst hout
      unfold sortByDeparture at hr
      have hperm := List.mergeSort_perm
        ((payoutTokenRows content).tail.filterMap
          (payoutProcessRow (payoutHeaderOf (payoutTokenRows content)) tm))
        (fun a b => a.departure ≤ b.departure)
      have hmem := hperm.mem_iff.mp hr
      obtain ⟨rowChars, _, hsome⟩ := List.mem_filterMap.mp hmem
      exact payoutProcessRow_pos _ _ _ _ hsome
  · intro headers columnMapping rawRow htype hamt
    unfold parseCSVRowStep
    rw [if_neg (by simp)]
    have htyfalse : (match List.lookup "Type" rawRow with
        | some t => (t != "") && (t != "Reservation")
        | none => false) = false := by
      rcases hl : List.lookup "Type" rawRow with _ | t
      · rfl
      · rcases htype t hl with h1 | h1 <;> subst h1 <;> simp
    rw [if_neg (by rw [htyfalse]; simp)]
    dsimp only
    rw [if_pos hamt]

theorem jsParseFloat_zero : jsParseFloat "0" = some ((natOfDigits ['0'] : ℕ) : ℚ) := by
  rw [show ("0" : String) = String.mk ['0'] from rfl]
  rw [jsParseFloat_mk_digit_head ['0'] '0' [] rfl (by decide)]
  exact jsParseFloatCore_digits ['0'] (by decide) (by decide)

theorem jsLeZero_parse_zero : jsLeZero (jsParseFloat "0") := by
  rw [jsParseFloat_zero]
  show ((natOfDigits ['0'] : ℕ) : ℚ) ≤ 0
  rw [show natOfDigits ['0'] = 0 from by decide]
  norm_num

theorem payoutProcessRow_zeroAmount_eval :
    payoutProcessRow ["Checkout", "Amount"] none ("2025-07-31,0".data) = none := by
  unfold payoutProcessRow
  dsimp only
  rw [show (splitChar ("2025-07-31,0".data) ',').map
      (fun v => String.mk (trimChars (stripQuotesChars v)))
      = ["2025-07-31", "0"] from by decide]
  rw [show rowField ["Checkout", "Amount"] ["2025-07-31", "0"] "Checkout"
      = "2025-07-31" from by decide]
  rw [if_neg (show ¬(("2025-07-31" : String) = "") from by decide)]
  rw [show jsDateToISO (jsTrim "2025-07-31") = some "2025-07-31" from by decide]
  dsimp only
  unfold payoutProcessRow.payoutAcceptRow
  dsimp only
  rw [show rowField ["Checkout", "Amount"] ["2025-07-31", "0"] "Amount"
      = "0" from by decide]
  rw [if_neg (show ¬(("0" : String) = "") from by decide)]
  rw [if_pos jsLeZero_parse_zero]

/-- C3 counterexample: a payout data row with parseable checkout and
coerced amount 0 (`<= 0`).  The accounting module's `parsePayoutCSV`
returns just `ok []` for it — the row is in no `validRows`, and the
function's result contains no invalid-row record or reason whatsoever: the
row is silently dropped by `continue`, contradicting the claim that all
four dialect normalizers put such rows in `invalidRows`. -/
theorem payout_zeroAmount_dropped_counterexample :
    parsePayoutCSV "Checkout,Amount\n2025-07-31,0" none = .ok []
    ∧ jsLeZero (jsParseFloat "0") := by
  refine ⟨?_, jsLeZero_parse_zero⟩
  unfold parsePayoutCSV
  rw [show payoutTokenRows "Checkout,Amount\n2025-07-31,0"
      = ["Checkout,Amount".data, "2025-07-31,0".data] from by decide]
  dsimp only
  rw [if_neg (by norm_num)]
  rw [show payoutHeaderOf ["Checkout,Amount".data, "2025-07-31,0".data]
      = ["Checkout", "Amount"] from by decide]
  rw [show (["Checkout,Amount".data, "2025-07-31,0".data] : List (List Char)).tail
      = ["2025-07-31,0".data] from rfl]
  rw [List.filterMap_cons]
  rw [payoutProcessRow_zeroAmount_eval]
  dsimp only
  rw [List.filterMap_nil]
  unfold sortByDeparture
  rw [List.mergeSort_nil]

/-- Witness for C3's amended theorem: the generic parser routes a `-5`
amount row to `invalidRows` with the reason string, and the accepted-rows
property holds for the counterexample file's (empty) output. -/
theorem amountSignFilter_policy_witness :
    (∀ r ∈ ([] : List BookingCSVRow), ¬ jsLeZero r.totalPayment)
    ∧ parseCSVRowStep ["Amount"] [("amountPaidGross", "Amount")] false
        [("Amount", "-5")]
        = .invalid ["Skipped: Negative amount (likely refund/cancellation)"] := by
  constructor
  · apply amountSignFilter_policy.1 "Checkout,Amount\n2025-07-31,0" none
    · unfold parsePayoutCSV
      rw [show payoutTokenRows "Checkout,Amount\n2025-07-31,0"
          = ["Checkout,Amount".data, "2025-07-31,0".data] from by decide]
      dsimp only
      rw [if_neg (by norm_num)]
      rw [show payoutHeaderOf ["Checkout,Amount".data, "2025-07-31,0".data]
          = ["Checkout", "Amount"] from by decide]
      rw [show (["Checkout,Amount".data, "2025-07-31,0".data] : List (List Char)).tail
          = ["2025-07-31,0".data] from rfl]
      rw [List.filterMap_cons, payoutProcessRow_zeroAmount_eval]
      dsimp only
      rw [List.filterMap_nil]
      unfold sortByDeparture
      rw [List.mergeSort_nil]
  · apply amountSignFilter_policy.2
    · intro t ht
      rw [show List.lookup "Type" [("Amount", "-5")] = (none : Option String)
        from by decide] at ht
      exact absurd ht (by simp)
    · rw [show grossFieldString (mapRow [("Amount", "-5")]
          [("amountPaidGross", "Amount")]) = "-5" from by decide]
      unfold parseAmount
      rw [if_neg (show ¬(("-5" : String) = "") from by decide)]
      rw [show jsTrim (String.mk ("-5".data.filter
          (fun c => !(currencyStripChars.contains c)))) = String.mk ['-', '5']
        from by decide]
      unfold jsParseFloat
      rw [show (String.mk ['-', '5']).data.dropWhile isJsWs = ['-', '5'] from by decide]
      dsimp only
      rw [if_pos (show (('-' == '-') = true) from rfl)]
      rw [jsParseFloatCore_digits ['5'] (by decide) (by decide)]
      rw [show natOfDigits ['5'] = 5 from by decide]
      norm_num

/-! ### Accounting CSV emitter (`generateAccountingCSV`, accounting module) -/

/-- The unified reservation record of the accounting module.  (`NaN`
payments cannot arise on the paths exercised here, so `totalPayment` is a
plain rational.) -/
structure UnifiedReservation where
  propertyName : String
  bookerName : String
  departure : String
  totalPayment : ℚ
  source : Source
  arrival : String
  currency : String
  reservationNumber : String
deriving DecidableEq, Repr

/-- One output row of the accounting CSV. -/
structure AccountingRow where
  konto : String
  belegnr : String
  belegdat : String
  symbol : String
  betrag : String
  steuer : String
  text : String
deriving DecidableEq, Repr

/-- `Number(num).toFixed(2)` for a non-negative rational: nearest
hundredth, ties toward the larger value. -/
def jsToFixed2Abs (q : ℚ) : String :=
  let n := ⌊q * 100 + 1/2⌋
  toString (n / 100) ++ "." ++ pad2 (n % 100)

/-- `Number(num).toFixed(2)` (sign extracted first, per the ES
specification). -/
def jsToFixed2 (q : ℚ) : String :=
  if q < 0 then "-" ++ jsToFixed2Abs (-q) else jsToFixed2Abs q

/-- Embedding of `formatDecimal`: `toFixed(2)`, optionally with a comma as
decimal separator. -/
def formatDecimal (num : ℚ) (useComma : Bool) : String :=
  let formatted := jsToFixed2 num
  if useComma then String.mk (replaceFirstChar formatted.data '.' ',') else formatted

/-- Embedding of the accounting module's `formatDate`: `new Date(dateStr)`,
throw on an invalid date, else `YYYYMMDD` from the date's year, month and
day. -/
def formatDate (dateStr : String) : Except String String :=
  match parseJsDate dateStr with
  | some ymd => .ok (toString ymd.1 ++ pad2 ymd.2.1 ++ pad2 ymd.2.2)
  | none => .error ("Invalid date format: " ++ dateStr)

/-- The three accounting rows emitted for one reservation under voucher
number `belegnr`: gross revenue (konto 200000), negative net with negative
VAT (konto 8001), negative city tax (konto 8003); all three share the
voucher number, date and text. -/
def rowsForReservation (useCommaDecimal : Bool)
    (reservation : UnifiedReservation) (belegnr : ℤ) :
    Except String (List AccountingRow) :=
  match formatDate reservation.departure with
  | .error e => .error e
  | .ok belegdat =>
    let taxes := calculateAccountingTaxes reservation.totalPayment
    let propertyCode := getLocationShort reservation.propertyName reservation.source
    let text := toString belegnr ++ " " ++ propertyCode ++ " "
      ++ (if reservation.reservationNumber = "" then "N/A"
          else reservation.reservationNumber)
      ++ " " ++ reservation.bookerName ++ " " ++ sourceStr reservation.source
    .ok
      [{ konto := "200000", belegnr := toString belegnr, belegdat := belegdat,
         symbol := "AR", betrag := formatDecimal taxes.brutto useCommaDecimal,
         steuer := formatDecimal 0 useCommaDecimal, text := text },
       { konto := "8001", belegnr := toString belegnr, belegdat := belegdat,
         symbol := "AR", betrag := formatDecimal (-taxes.netto) useCommaDecimal,
         steuer := formatDecimal (-taxes.vat) useCommaDecimal, text := text },
       { konto := "8003", belegnr := toString belegnr, belegdat := belegdat,
         symbol := "AR", betrag := formatDecimal (-taxes.cityTax) useCommaDecimal,
         steuer := formatDecimal 0 useCommaDecimal, text := text }]

/-- The accounting-row loop: three rows per reservation, voucher counter
incremented once per reservation. -/
def generateAccountingRows (useCommaDecimal : Bool) :
    List UnifiedReservation → ℤ → Except String (List AccountingRow)
  | [], _ => .ok []
  | r :: rs, n =>
    match rowsForReservation useCommaDecimal r n with
    | .error e => .error e
    | .ok rows =>
      match generateAccountingRows useCommaDecimal rs (n + 1) with
      | .error e => .error e
      | .ok rest => .ok (rows ++ rest)

def accountingHeader : String := "konto;belegnr;belegdat;symbol;betrag;steuer;text"

/-- One emitted line: the semicolon-joined fields wrapped in a single
double-quoted cell. -/
def serializeAccountingRow (row : AccountingRow) : String :=
  "\"" ++ row.konto ++ ";" ++ row.belegnr ++ ";" ++ row.belegdat ++ ";"
    ++ row.symbol ++ ";" ++ row.betrag ++ ";" ++ row.steuer ++ ";" ++ row.text
    ++ "\""

/-- Embedding of `generateAccountingCSV`: header line then one serialized
line per accounting row, joined with newlines. -/
def generateAccountingCSV (unifiedReservations : List UnifiedReservation)
    (startBelegnr : ℤ) (useCommaDecimal : Bool) : Except String String :=
  match generateAccountingRows useCommaDecimal unifiedReservations startBelegnr with
  | .error e => .error e
  | .ok rows =>
    .ok (String.intercalate "\n"
      (accountingHeader :: rows.map serializeAccountingRow))

theorem rowsForReservation_shape (uc : Bool) (r : UnifiedReservation) (n : ℤ)
    (a : List AccountingRow) (h : rowsForReservation uc r n = .ok a) :
    a.length = 3 ∧ ∀ row ∈ a, row.belegnr = toString n := by
  unfold rowsForReservation at h
  split at h
  · exact absurd h (by simp)
  · have ha := (Except.ok.injEq _ _).mp h
    subst ha
    refine ⟨rfl, ?_⟩
    intro row hrow
    fin_cases hrow <;> rfl

theorem generateAccountingRows_spec (uc : Bool) :
    ∀ (rs : List UnifiedReservation) (s : ℤ) (rows : List AccountingRow),
      generateAccountingRows uc rs s = .ok rows →
      rows.length = 3 * rs.length
      ∧ ∀ k, k < rs.length → ∀ j, j < 3 →
          ∃ row, rows[3 * k + j]? = some row ∧ row.belegnr = toString (s + k) := by
  intro rs
  induction rs with
  | nil =>
    intro s rows h
    unfold generateAccountingRows at h
    have hrows := (Except.ok.injEq _ _).mp h
    subst hrows
    exact ⟨rfl, by intro k hk; exact absurd hk (by simp)⟩
  | cons r rs ih =>
    intro s rows h
    unfold generateAccountingRows at h
    rcases hrf : rowsForReservation uc r s with e | a <;> rw [hrf] at h <;>
      dsimp only at h
    · exact absurd h (by simp)
    rcases hgen : generateAccountingRows uc rs (s + 1) with e | rest <;>
      rw [hgen] at h <;> dsimp only at h
    · exact absurd h (by simp)
    have hrows := (Except.ok.injEq _ _).mp h
    subst hrows
    obtain ⟨hlen3, hbel⟩ := rowsForReservation_shape uc r s a hrf
    obtain ⟨hlen, hidx⟩ := ih (s + 1) rest hgen
    constructor
    · rw [List.length_append, hlen3, hlen, List.length_cons]
      ring
    · intro k hk j hj
      cases k with
      | zero =>
        have hj3 : 3 * 0 + j < a.length := by omega
        obtain ⟨row, hrow⟩ : ∃ row, a[3 * 0 + j]? = some row :=
          ⟨_, List.getElem?_eq_getElem hj3⟩
        refine ⟨row, ?_, ?_⟩
        · rw [List.getElem?_append_left hj3]
          exact hrow
        · rw [hbel row (List.getElem?_mem hrow)]
          congr 1
          push_cast
          ring
      | succ k =>
        rw [List.length_cons] at hk
        have hklen : k < rs.length := by omega
        obtain ⟨row, hrow, hb⟩ := hidx k hklen j hj
        refine ⟨row, ?_, ?_⟩
        · rw [List.getElem?_append_right (by omega : a.length ≤ 3 * (k + 1) + j)]
          rw [hlen3]
          rw [show 3 * (k + 1) + j - 3 = 3 * k + j from by omega]
          exact hrow
        · rw [hb]
          congr 1
          push_cast
          ring

/-- C4: for every reservation list of length `n` whose departures all
format successfully (the data model guarantees ISO departure dates) and
every start voucher number `s`, the emitter produces the fixed header line
followed by exactly `3 * n` data lines, each being one serialized
accounting row — a single double-quoted cell of the semicolon-joined
values — and the three rows for the `k`-th reservation (0-based) all carry
voucher number `s + k`: the counter increments once per reservation, not
per emitted row. -/
theorem generateAccountingCSV_structure (rs : List UnifiedReservation)
    (s : ℤ) (uc : Bool) (rows : List AccountingRow)
    (h : generateAccountingRows uc rs s = .ok rows) :
    rows.length = 3 * rs.length
    ∧ generateAccountingCSV rs s uc
        = .ok (String.intercalate "\n"
            (accountingHeader :: rows.map serializeAccountingRow))
    ∧ (∀ row, serializeAccountingRow row
        = "\"" ++ row.konto ++ ";" ++ row.belegnr ++ ";" ++ row.belegdat ++ ";"
          ++ row.symbol ++ ";" ++ row.betrag ++ ";" ++ row.steuer ++ ";"
          ++ row.text ++ "\"")
    ∧ ∀ k, k < rs.length → ∀ j, j < 3 →
        ∃ row, rows[3 * k + j]? = some row ∧ row.belegnr = toString (s + k) := by
  obtain ⟨hlen, hidx⟩ := generateAccountingRows_spec uc rs s rows h
  refine ⟨hlen, ?_, fun row => rfl, hidx⟩
  unfold generateAccountingCSV
  rw [h]

/-- The reservation of the spec's accounting scenario. -/
def reservation0 : UnifiedReservation :=
  { propertyName := "Margot", bookerName := "Jane Doe",
    departure := "2025-07-02", totalPayment := 110, source := .BookingCom,
    arrival := "2025-06-30", currency := "EUR", reservationNumber := "123" }

/-- Witness for C4: one reservation, start voucher 2251 — three rows, the
first carrying voucher number 2251. -/
theorem generateAccountingCSV_structure_witness :
    ∃ rows, generateAccountingRows false [reservation0] 2251 = .ok rows
      ∧ rows.length = 3 * 1
      ∧ ∃ row, rows[3 * 0 + 0]? = some row
          ∧ row.belegnr = toString ((2251 : ℤ) + (0 : ℕ)) := by
  obtain ⟨rows, hrows⟩ : ∃ rows,
      generateAccountingRows false [reservation0] 2251 = .ok rows := by
    unfold generateAccountingRows rowsForReservation
    rw [show reservation0.departure = "2025-07-02" from rfl]
    rw [show formatDate "2025-07-02" = .ok "20250702" from by decide]
    dsimp only
    exact ⟨_, rfl⟩
  have hspec := generateAccountingCSV_structure [reservation0] 2251 false rows hrows
  refine ⟨rows, hrows, hspec.1, ?_⟩
  exact hspec.2.2.2 0 (by norm_num) 0 (by norm_num)

/-! ### Dual-file reconciliation matcher (`parse-dual-csv/route.ts`) -/

/-- One ledger (BMD) entry as produced by `parseBMDList`. -/
structure BMDEntry where
  belegnr : String
  reservationNumber : String
  guestName : String
  bruttoAmount : ℚ
  checkoutDate : String
deriving DecidableEq, Repr

/-- One reservation entry as produced by `parseReservationsCSV`. -/
structure ReservationEntry where
  reservationNumber : String
  propertyName : String
  bookerName : String
  arrival : String
  departure : String
  totalPayment : ℚ
  currency : String
deriving DecidableEq, Repr

/-- One merged output record of the matcher. -/
structure MergedReservation where
  reservationId : String
  invoiceNumber : String
  guestName : String
  checkInDate : String
  checkOutDate : String
  amountPaidGross : ℚ
  currency : String
  property : String
  propertyId : String
deriving DecidableEq, Repr

/-- Embedding of the route's `getPropertyId`: exact table then keyword
fallbacks, `UNKNOWN` for the empty name, else the name itself. -/
def getPropertyId (propertyName : String) : String :=
  let table : List (String × String) :=
    [("Home Sweet Home - Vienna Central", "BEGA"),
     ("Home Sweet Home - State Opera", "WAFG"),
     ("Home Sweet Home - Leopold", "LAS"),
     ("Home Sweet Home - Stephansdom", "KRA"),
     ("Home Sweet Home - Stephansdom II", "BM"),
     ("Margot", "KLIE"),
     ("Denube Suites", "LAMM"),
     ("Céleste Suites", "ZIMM")]
  match table.lookup propertyName with
  | some v => v
  | none =>
    let name := jsToLower propertyName
    if jsIncludes name "vienna central" || jsIncludes name "bechardgasse" then "BEGA"
    else if jsIncludes name "state opera" || jsIncludes name "walfischgasse" then "WAFG"
    else if jsIncludes name "leopold" || jsIncludes name "lassallestraße" then "LAS"
    else if jsIncludes name "stephansdom" && jsIncludes name "kramergasse" then "KRA"
    else if jsIncludes name "stephansdom" && jsIncludes name "bauernmarkt" then "BM"
    else if jsIncludes name "margot" || jsIncludes name "kliebergasse" then "KLIE"
    else if jsIncludes name "denube" then "LAMM"
    else if jsIncludes name "céleste" then "ZIMM"
    else if propertyName = "" then "UNKNOWN"
    else propertyName

/-- `entry.reservationNumber && entry.reservationNumber.length >= 8`. -/
def bmdHasResNum (e : BMDEntry) : Bool :=
  (e.reservationNumber != "") && (8 ≤ e.reservationNumber.length)

/-- The `Map` built by `reservations.forEach(res => map.set(...))` — the
LAST entry with a given reservation number wins. -/
def reservationLookup (reservations : List ReservationEntry) (key : String) :
    Option ReservationEntry :=
  reservations.foldl
    (fun acc r => if r.reservationNumber = key then some r else acc) none

/-- `reservation.departure || bmdEntry.checkoutDate || today`. -/
def seqCheckout (today : String) (e : BMDEntry) (r : ReservationEntry) : String :=
  if r.departure ≠ "" then r.departure
  else if e.checkoutDate ≠ "" then e.checkoutDate
  else today

/-- Merged record of the direct-matching hit path. -/
def mergeDirectHit (today : String) (e : BMDEntry) (r : ReservationEntry) :
    Except String MergedReservation :=
  let checkoutDate := seqCheckout today e r
  match (if r.arrival ≠ "" then Except.ok r.arrival
      else jsDayBeforeISO checkoutDate) with
  | .error err => .error err
  | .ok checkinDate =>
    .ok { reservationId := e.reservationNumber, invoiceNumber := e.belegnr,
          guestName := r.bookerName, checkInDate := checkinDate,
          checkOutDate := checkoutDate, amountPaidGross := e.bruttoAmount,
          currency := r.currency, property := r.propertyName,
          propertyId := getPropertyId r.propertyName }

/-- Merged record of the direct-matching miss path: ledger-only data, the
extracted guest name with 'Unknown Guest' as fallback. -/
def mergeDirectMiss (today : String) (e : BMDEntry) :
    Except String MergedReservation :=
  let checkoutDate := if e.checkoutDate ≠ "" then e.checkoutDate else today
  match jsDayBeforeISO checkoutDate with
  | .error err => .error err
  | .ok checkinDate =>
    .ok { reservationId := e.reservationNumber, invoiceNumber := e.belegnr,
          guestName := if e.guestName = "" then "Unknown Guest" else e.guestName,
          checkInDate := checkinDate, checkOutDate := checkoutDate,
          amountPaidGross := e.bruttoAmount, currency := "EUR",
          property := "KLIE", propertyId := "KLIE" }

/-- Merged record of the sequential-pairing fallback. -/
def mergeSequential (today : String) (e : BMDEntry) (r : ReservationEntry) :
    Except String MergedReservation :=
  let checkoutDate := seqCheckout today e r
  match (if r.arrival ≠ "" then Except.ok r.arrival
      else jsDayBeforeISO checkoutDate) with
  | .error err => .error err
  | .ok checkinDate =>
    .ok { reservationId := r.reservationNumber, invoiceNumber := e.belegnr,
          guestName := r.bookerName, checkInDate := checkinDate,
          checkOutDate := checkoutDate, amountPaidGross := e.bruttoAmount,
          currency := r.currency, property := r.propertyName,
          propertyId := getPropertyId r.propertyName }

/-- Error-propagating map (the matcher's for-loops, where a thrown
`RangeError` aborts the whole call). -/
def exceptMapList {α β : Type} (f : α → Except String β) :
    List α → Except String (List β)
  | [] => .ok []
  | a :: as =>
    match f a with
    | .error e => .error e
    | .ok b =>
      match exceptMapList f as with
      | .error e => .error e
      | .ok bs => .ok (b :: bs)

/-- Embedding of `matchReservations`: direct matching by extracted
reservation number when at least one ledger entry has one (lookup hits
merge ledger amount with reservation data; misses still emit a ledger-only
record); otherwise sequential pairing of the i-th ledger entry with the
i-th reservation entry up to the shorter list.  `today` is the value of
`new Date()` used by the date fallbacks. -/
def matchReservations (today : String) (bmdEntries : List BMDEntry)
    (reservations : List ReservationEntry) :
    Except String (List MergedReservation) :=
  let bmdWithNums := bmdEntries.filter bmdHasResNum
  let sequential : Except String (List MergedReservation) :=
    exceptMapList (fun p => mergeSequential today p.1 p.2)
      (bmdEntries.zip reservations)
  if 0 < bmdWithNums.length then
    match exceptMapList (fun e =>
        match reservationLookup reservations e.reservationNumber with
        | some r => mergeDirectHit today e r
        | none => mergeDirectMiss today e) bmdWithNums with
    | .error e => .error e
    | .ok directMatches =>
      if directMatches.length = 0 then sequential else .ok directMatches
  else sequential

theorem exceptMapList_ok {α β : Type} (f : α → Except String β) (g : α → β) :
    ∀ l : List α, (∀ a ∈ l, f a = .ok (g a)) →
      exceptMapList f l = .ok (l.map g) := by
  intro l
  induction l with
  | nil => intro _; rfl
  | cons a as ih =>
    intro h
    unfold exceptMapList
    rw [h a (by simp), ih (fun x hx => h x (by simp [hx]))]
    rfl

/-- The sequential-pairing record when the reservation's arrival is
populated (as `parseReservationsCSV` always guarantees). -/
def seqMergedOf (today : String) (e : BMDEntry) (r : ReservationEntry) :
    MergedReservation :=
  { reservationId := r.reservationNumber, invoiceNumber := e.belegnr,
    guestName := r.bookerName, checkInDate := r.arrival,
    checkOutDate := seqCheckout today e r, amountPaidGross := e.bruttoAmount,
    currency := r.currency, property := r.propertyName,
    propertyId := getPropertyId r.propertyName }

theorem mergeSequential_ok (today : String) (e : BMDEntry)
    (r : ReservationEntry) (h : r.arrival ≠ "") :
    mergeSequential today e r = .ok (seqMergedOf today e r) := by
  unfold mergeSequential
  dsimp only
  rw [if_pos h]
  rfl

/-- C5: when no ledger entry carries an extractable reservation number, the
matcher pairs i-th with i-th, in input order, up to the length of the
shorter list; surplus entries on either side are excluded and no error is
raised.  (`parseReservationsCSV` always populates `arrival`, which the
hypothesis `harr` records; with it the sequential path performs no date
arithmetic and is total.) -/
theorem matcher_sequential_pairing (today : String) (bmdEntries : List BMDEntry)
    (reservations : List ReservationEntry)
    (hnone : bmdEntries.filter bmdHasResNum = [])
    (harr : ∀ r ∈ reservations, r.arrival ≠ "") :
    ∃ out : List MergedReservation,
      matchReservations today bmdEntries reservations = .ok out
      ∧ out.length = min bmdEntries.length reservations.length
      ∧ ∀ (i : ℕ) (b : BMDEntry) (r : ReservationEntry),
          bmdEntries[i]? = some b → reservations[i]? = some r →
          ∃ m : MergedReservation, out[i]? = some m
            ∧ m.invoiceNumber = b.belegnr
            ∧ m.reservationId = r.reservationNumber
            ∧ m.guestName = r.bookerName
            ∧ m.amountPaidGross = b.bruttoAmount
            ∧ m.currency = r.currency
            ∧ m.property = r.propertyName := by
  have hseq : exceptMapList (fun p => mergeSequential today p.1 p.2)
      (bmdEntries.zip reservations)
      = .ok ((bmdEntries.zip reservations).map
          (fun p => seqMergedOf today p.1 p.2)) := by
    apply exceptMapList_ok
    intro p hp
    exact mergeSequential_ok today p.1 p.2 (harr p.2 (List.of_mem_zip hp).2)
  refine ⟨(bmdEntries.zip reservations).map (fun p => seqMergedOf today p.1 p.2),
    ?_, ?_, ?_⟩
  · unfold matchReservations
    rw [hnone]
    dsimp only
    rw [if_neg (by norm_num)]
    exact hseq
  · rw [List.length_map, List.length_zip]
  · intro i b r hb hr
    refine ⟨seqMergedOf today b r, ?_, rfl, rfl, rfl, rfl, rfl, rfl⟩
    rw [List.getElem?_map]
    rw [(@List.getElem?_zip_eq_some BMDEntry ReservationEntry
      bmdEntries reservations (b, r) i).mpr ⟨hb, hr⟩]
    rfl

/-- Witness for C5: three ledger entries with no extractable reservation
number against three reservations pair strictly 1↔1, 2↔2, 3↔3. -/
theorem matcher_sequential_pairing_witness :
    ∃ out, matchReservations "2025-08-01"
        [⟨"2251", "", "", 100, "2025-07-10"⟩,
         ⟨"2252", "", "", 200, "2025-07-11"⟩,
         ⟨"2253", "", "", 300, "2025-07-12"⟩]
        [⟨"11111111", "Margot", "Alice", "2025-07-08", "2025-07-10", 100, "EUR"⟩,
         ⟨"22222222", "Margot", "Bob", "2025-07-09", "2025-07-11", 200, "EUR"⟩,
         ⟨"33333333", "Margot", "Carol", "2025-07-10", "2025-07-12", 300, "EUR"⟩]
        = .ok out
      ∧ out.length = min 3 3
      ∧ (∃ m, out[1]? = some m
          ∧ m.invoiceNumber = "2252"
          ∧ m.reservationId = "22222222"
          ∧ m.guestName = "Bob"
          ∧ m.amountPaidGross = 200
          ∧ m.currency = "EUR"
          ∧ m.property = "Margot") := by
  obtain ⟨out, hout, hlen, hidx⟩ := matcher_sequential_pairing "2025-08-01"
    [⟨"2251", "", "", 100, "2025-07-10"⟩,
     ⟨"2252", "", "", 200, "2025-07-11"⟩,
     ⟨"2253", "", "", 300, "2025-07-12"⟩]
    [⟨"11111111", "Margot", "Alice", "2025-07-08", "2025-07-10", 100, "EUR"⟩,
     ⟨"22222222", "Margot", "Bob", "2025-07-09", "2025-07-11", 200, "EUR"⟩,
     ⟨"33333333", "Margot", "Carol", "2025-07-10", "2025-07-12", 300, "EUR"⟩]
    (by decide) (by decide)
  refine ⟨out, hout, hlen, ?_⟩
  have h := hidx 1 ⟨"2252", "", "", 200, "2025-07-11"⟩
    ⟨"22222222", "Margot", "Bob", "2025-07-09", "2025-07-11", 200, "EUR"⟩
    rfl rfl
  obtain ⟨m, hm, h1, h2, h3, h4, h5, h6⟩ := h
  exact ⟨m, hm, h1, h2, h3, h4, h5, h6⟩

theorem parseJsDate_empty : parseJsDate "" = none := by decide

theorem exceptMapList_ok_pointwise {α β : Type} (f : α → Except String β) :
    ∀ l : List α, (∀ a ∈ l, ∃ b, f a = .ok b) →
      ∃ out : List β, exceptMapList f l = .ok out ∧ out.length = l.length
        ∧ ∀ (i : ℕ) (a : α), l[i]? = some a →
            ∃ m, out[i]? = some m ∧ f a = .ok m := by
  intro l
  induction l with
  | nil =>
    intro _
    refine ⟨[], rfl, rfl, ?_⟩
    intro i a ha
    exact absurd ha (by simp)
  | cons a as ih =>
    intro h
    obtain ⟨b, hb⟩ := h a (by simp)
    obtain ⟨out, hout, hlen, hidx⟩ := ih (fun x hx => h x (by simp [hx]))
    refine ⟨b :: out, ?_, by simp [hlen], ?_⟩
    · unfold exceptMapList
      rw [hb, hout]
    · intro i x hx
      cases i with
      | zero =>
        rw [List.getElem?_cons_zero] at hx
        have hax := (Option.some.injEq _ _).mp hx
        subst hax
        exact ⟨b, by simp, hb⟩
      | succ i =>
        rw [List.getElem?_cons_succ] at hx
        obtain ⟨m, hm, hf⟩ := hidx i x hx
        exact ⟨m, by simpa [List.getElem?_cons_succ] using hm, hf⟩

theorem foldl_lastMatch_mem (key : String) :
    ∀ (l : List ReservationEntry) (acc : Option ReservationEntry)
      (r : ReservationEntry),
      l.foldl (fun acc x => if x.reservationNumber = key then some x else acc)
        acc = some r →
      r ∈ l ∨ acc = some r := by
  intro l
  induction l with
  | nil => intro acc r h; exact Or.inr h
  | cons x xs ih =>
    intro acc r h
    rw [List.foldl_cons] at h
    rcases ih _ r h with h1 | h1
    · exact Or.inl (List.mem_cons_of_mem _ h1)
    · by_cases hx : x.reservationNumber = key
      · rw [if_pos hx] at h1
        rw [← (Option.some.injEq _ _).mp h1]
        exact Or.inl (List.mem_cons_self x xs)
      · rw [if_neg hx] at h1
        exact Or.inr h1

theorem reservationLookup_mem (l : List ReservationEntry) (key : String)
    (r : ReservationEntry) (h : reservationLookup l key = some r) : r ∈ l := by
  rcases foldl_lastMatch_mem key l none r h with h1 | h1
  · exact h1
  · exact absurd h1 (by simp)

theorem mergeDirectHit_ok (today : String) (e : BMDEntry)
    (r : ReservationEntry) (h : r.arrival ≠ "") :
    ∃ m, mergeDirectHit today e r = .ok m ∧ m.guestName = r.bookerName
      ∧ m.invoiceNumber = e.belegnr ∧ m.amountPaidGross = e.bruttoAmount := by
  unfold mergeDirectHit
  dsimp only
  rw [if_pos h]
  exact ⟨_, rfl, rfl, rfl, rfl⟩

theorem mergeDirectMiss_ok (today : String) (e : BMDEntry)
    (h : ∃ ymd, parseJsDate e.checkoutDate = some ymd) :
    ∃ m, mergeDirectMiss today e = .ok m
      ∧ m.guestName = (if e.guestName = "" then "Unknown Guest" else e.guestName)
      ∧ m.invoiceNumber = e.belegnr ∧ m.amountPaidGross = e.bruttoAmount := by
  obtain ⟨ymd, hymd⟩ := h
  have hne : e.checkoutDate ≠ "" := by
    intro hempty
    rw [hempty, parseJsDate_empty] at hymd
    exact absurd hymd (by simp)
  unfold mergeDirectMiss
  dsimp only
  rw [if_pos hne]
  unfold jsDayBeforeISO jsDateEpochDays
  rw [hymd]
  exact ⟨_, rfl, rfl, rfl, rfl⟩

/-- C10 (amended): with at least one ledger entry carrying an extractable
reservation number, the matcher emits exactly one merged record per such
entry — ledger amount in every record; on a lookup miss the ledger's
extracted guest name is used, with 'Unknown Guest' only as fallback when
none was extracted — and entries WITHOUT an extractable number contribute
no record.  (Hypotheses record the producing parsers' invariants: BMD
checkout dates parse, reservation arrivals are populated.) -/
theorem matcher_direct_matching (today : String) (bmdEntries : List BMDEntry)
    (reservations : List ReservationEntry)
    (hsome : bmdEntries.filter bmdHasResNum ≠ [])
    (hco : ∀ e ∈ bmdEntries, ∃ ymd, parseJsDate e.checkoutDate = some ymd)
    (harr : ∀ r ∈ reservations, r.arrival ≠ "") :
    ∃ out : List MergedReservation,
      matchReservations today bmdEntries reservations = .ok out
      ∧ out.length = (bmdEntries.filter bmdHasResNum).length
      ∧ ∀ (i : ℕ) (e : BMDEntry),
          (bmdEntries.filter bmdHasResNum)[i]? = some e →
          ∃ m : MergedReservation, out[i]? = some m
            ∧ m.invoiceNumber = e.belegnr
            ∧ m.amountPaidGross = e.bruttoAmount
            ∧ (reservationLookup reservations e.reservationNumber = none →
                m.guestName
                  = (if e.guestName = "" then "Unknown Guest" else e.guestName))
            ∧ (∀ r, reservationLookup reservations e.reservationNumber = some r →
                m.guestName = r.bookerName) := by
  have hallok : ∀ e ∈ bmdEntries.filter bmdHasResNum,
      ∃ b, (match reservationLookup reservations e.reservationNumber with
        | some r => mergeDirectHit today e r
        | none => mergeDirectMiss today e) = .ok b := by
    intro e he
    have hebmd : e ∈ bmdEntries := List.mem_of_mem_filter he
    rcases hl : reservationLookup reservations e.reservationNumber with _ | r
    · obtain ⟨m, hm, _⟩ := mergeDirectMiss_ok today e (hco e hebmd)
      exact ⟨m, hm⟩
    · obtain ⟨m, hm, _⟩ := mergeDirectHit_ok today e r
        (harr r (reservationLookup_mem reservations _ r hl))
      exact ⟨m, hm⟩
  obtain ⟨direct, hdirect, hdlen, hdidx⟩ :=
    exceptMapList_ok_pointwise _ (bmdEntries.filter bmdHasResNum) hallok
  refine ⟨direct, ?_, hdlen, ?_⟩
  · unfold matchReservations
    rw [if_pos (List.length_pos.mpr hsome), hdirect]
    show (if direct.length = 0 then
        exceptMapList (fun p => mergeSequential today p.1 p.2)
          (bmdEntries.zip reservations)
      else Except.ok direct) = Except.ok direct
    rw [if_neg (by
      rw [hdlen]
      intro hzero
      exact hsome (List.eq_nil_of_length_eq_zero hzero))]
  · intro i e he
    obtain ⟨m, hm, hfok⟩ := hdidx i e he
    have hebmd : e ∈ bmdEntries := List.mem_of_mem_filter (List.getElem?_mem he)
    rcases hl : reservationLookup reservations e.reservationNumber with _ | r <;>
      rw [hl] at hfok <;> dsimp only at hfok
    · obtain ⟨m', hm'ok, hg, hi, ha⟩ := mergeDirectMiss_ok today e (hco e hebmd)
      rw [hm'ok] at hfok
      have hmm := (Except.ok.injEq _ _).mp hfok
      subst hmm
      exact ⟨_, hm, hi, ha, fun _ => hg, fun r hr => absurd hr (by simp)⟩
    · obtain ⟨m', hm'ok, hg, hi, ha⟩ := mergeDirectHit_ok today e r
        (harr r (reservationLookup_mem reservations _ r hl))
      rw [hm'ok] at hfok
      have hmm := (Except.ok.injEq _ _).mp hfok
      subst hmm
      refine ⟨_, hm, hi, ha, fun hnone => absurd hnone (by simp), ?_⟩
      intro r' hr'
      rw [← (Option.some.injEq _ _).mp hr']
      exact hg

/-- A ledger entry with extractable reservation number 12345678 and
extracted guest name "John". -/
def bmdMissEntry : BMDEntry :=
  { belegnr := "2251", reservationNumber := "12345678", guestName := "John",
    bruttoAmount := 100, checkoutDate := "2025-07-31" }

/-- C10 counterexample: on a lookup miss (no reservations at all) the
emitted record's guest name is the ledger's extracted name "John", not the
placeholder 'Unknown Guest' the claim prescribes for every miss. -/
theorem matcher_miss_guestname_counterexample :
    matchReservations "2025-08-01" [bmdMissEntry] []
      = .ok [{ reservationId := "12345678", invoiceNumber := "2251",
               guestName := "John", checkInDate := "2025-07-30",
               checkOutDate := "2025-07-31", amountPaidGross := 100,
               currency := "EUR", property := "KLIE", propertyId := "KLIE" }]
    ∧ ("John" : String) ≠ "Unknown Guest" := by
  constructor
  · decide
  · decide

/-- Witness for C10: one extractable ledger entry that hits a reservation —
exactly one merged record, ledger amount, reservation guest name. -/
theorem matcher_direct_matching_witness :
    ∃ out : List MergedReservation,
      matchReservations "2025-08-01"
        [{ belegnr := "2251", reservationNumber := "12345678",
           guestName := "John", bruttoAmount := 100,
           checkoutDate := "2025-07-31" }]
        [{ reservationNumber := "12345678", propertyName := "Margot",
           bookerName := "Alice", arrival := "2025-07-28",
           departure := "2025-07-31", totalPayment := 99, currency := "EUR" }]
        = .ok out
      ∧ out.length = 1
      ∧ ∃ m : MergedReservation, out[0]? = some m
          ∧ m.invoiceNumber = "2251" ∧ m.amountPaidGross = 100
          ∧ m.guestName = "Alice" := by
  obtain ⟨out, hout, hlen, hidx⟩ := matcher_direct_matching "2025-08-01"
    [{ belegnr := "2251", reservationNumber := "12345678",
       guestName := "John", bruttoAmount := 100, checkoutDate := "2025-07-31" }]
    [{ reservationNumber := "12345678", propertyName := "Margot",
       bookerName := "Alice", arrival := "2025-07-28",
       departure := "2025-07-31", totalPayment := 99, currency := "EUR" }]
    (by decide)
    (by
      intro e he
      fin_cases he
      exact ⟨(2025, 7, 31), by decide⟩)
    (by
      intro r hr
      fin_cases hr
      decide)
  refine ⟨out, hout, by rw [hlen]; decide, ?_⟩
  obtain ⟨m, hm, hinv, hamt, _, hguest⟩ := hidx 0
    { belegnr := "2251", reservationNumber := "12345678",
      guestName := "John", bruttoAmount := 100, checkoutDate := "2025-07-31" }
    (by decide)
  refine ⟨m, hm, hinv, hamt, ?_⟩
  exact hguest
    { reservationNumber := "12345678", propertyName := "Margot",
      bookerName := "Alice", arrival := "2025-07-28",
      departure := "2025-07-31", totalPayment := 99, currency := "EUR" }
    (by decide)
